import Mathlib

/-!
Verification of the GTFS data-store core of the `trainbot` repository.

The definitions below are a shallow embedding of `src/bot/gtfs/types.py`,
`src/bot/gtfs/store.py` and `src/bot/gtfs/realtime.py`.

Modelling conventions (fixed once, used throughout):

* `datetime.date` is modelled as `Int`: the proleptic-Gregorian ordinal of the
  date, exactly as returned by Python's `date.toordinal()` (0001-01-01 has
  ordinal 1 and is a Monday).  Python's `date.weekday()` (Monday = 0) is then
  `(d - 1) % 7`, and the day arithmetic `today - timedelta(days=1)` is `d - 1`.
* `datetime.timedelta` (the GTFS time-of-day offsets) is modelled as `Int`
  seconds.  `datetime.datetime` values (absolute timestamps) are modelled as
  `Int` seconds on a single linear axis for the agency's fixed-offset local
  timezone (Australia/Brisbane has no DST): midnight of ordinal date `d` is
  `d * 86400`, so `datetime.combine(date, time(), tz) + offset` becomes
  `d * 86400 + offset`, an order-embedding of the Python values.
* Python `dict`s are modelled as association lists (`List (κ × α)`),
  insertion-ordered like CPython dicts: `List.lookup` is `d.get`/`d[k]`
  (`none` = `KeyError`), `dinsert` is `d[k] = v` (replace in place, or append
  for a new key).  `defaultdict`s are modelled as total functions `κ → α`
  where a missing key reads as the default; the CPython side effect of
  materialising an empty default entry on read is dropped, which is sound
  because an absent key and an empty default entry are indistinguishable to
  every read in these modules.
* Python raising an exception is modelled with `Except String`; the message
  text is not part of any property.
* CPython stores object references: the same `StopTimeInstance` object is
  reachable from `_stop_time_instances_by_date` and from the
  `_stop_time_instances_by_stop` index.  The embedding keeps the by-date map
  as the owner of the instance values and models the per-stop index as a list
  of keys `(date, trip id, stop sequence)` — the three immutable identity
  attributes of the referenced object — dereferenced through the by-date map.
-/

namespace Trainbot

abbrev Date := Int
abbrev Time := Int

/-- Python `date.weekday()` on the ordinal representation (Monday = 0). -/
def weekday (d : Date) : Int := (d - 1) % 7

/-- Python `datetime.combine(date, time(), tzinfo=local)` on the seconds axis. -/
def dayStart (d : Date) : Time := d * 86400

/-- Python `str.lower()`: character-wise lower-casing (GTFS ids are ASCII, so
the per-character map is exact; `String.toLower` is the same map but its core
implementation does not reduce in the kernel). -/
def strLower (s : String) : String := String.mk (s.data.map Char.toLower)

/-- Python dict assignment `m[k] = v`: replace the value of an existing key in
place, append a new key at the end (CPython insertion order). -/
def dinsert {κ α : Type} [BEq κ] : List (κ × α) → κ → α → List (κ × α)
  | [], k, v => [(k, v)]
  | (k', v') :: rest, k, v =>
    if k' == k then (k', v) :: rest else (k', v') :: dinsert rest k v

-- region: GTFS static data types (src/bot/gtfs/types.py)

/-- `RouteType` enum of `types.py`. -/
inductive RouteType
  | tram
  | rail
  | bus
  | ferry
deriving DecidableEq, Repr

/-- `Direction` enum of `types.py`. -/
inductive Direction
  | upward
  | downward
deriving DecidableEq, Repr

/-- `LocationType` enum of `types.py`. -/
inductive LocationType
  | stop
  | station
deriving DecidableEq, Repr

/-- `Route` of `types.py` (the `colour` property is derived, not a field). -/
structure Route where
  id : String
  short_name : String
  long_name : String
  type : RouteType
deriving DecidableEq, Repr

/-- `Service` of `types.py`.  `days` is the set of weekday numbers the service
operates (`set[int]`, modelled by membership in a list); `exceptions` is the
`dict[date, bool]` of explicit overrides. -/
structure Service where
  id : String
  days : List Int
  start_date : Date
  end_date : Date
  exceptions : List (Date × Bool)
deriving DecidableEq, Repr

/-- `Service.runs_on` of `types.py` lines 226-242:
if the date is a key of the exceptions dict return the stored value, else
`self.start_date <= date <= self.end_date and date.weekday() in self.days`. -/
def Service.runs_on (s : Service) (d : Date) : Bool :=
  match s.exceptions.lookup d with
  | some b => b
  | none =>
    decide (s.start_date ≤ d) && decide (d ≤ s.end_date) && s.days.contains (weekday d)

/-- `Trip` of `types.py`. -/
structure Trip where
  id : String
  route_id : String
  service_id : String
  headsign : String
  direction : Direction
deriving DecidableEq, Repr

/-- `Stop` of `types.py` (the store constructs it from a `stops.txt` row;
an empty parent-station or platform column is `None`). -/
structure Stop where
  id : String
  name : String
  url : String
  type : LocationType
  parent_station_id : Option String
  platform_code : Option String
deriving DecidableEq, Repr

/-- `StopTime` of `types.py`; `arrival_time`/`departure_time` are the GTFS
time-of-day offsets (timedeltas, may exceed 24h). -/
structure StopTime where
  trip_id : String
  sequence : Int
  stop_id : String
  arrival_time : Int
  departure_time : Int
  terminates : Bool
deriving DecidableEq, Repr

/-- `TripInstance` of `types.py`: a trip bound to a date, plus the mutable
realtime `cancelled` flag (initially `False`). -/
structure TripInstance where
  id : String
  route_id : String
  service_id : String
  headsign : String
  direction : Direction
  date : Date
  cancelled : Bool
deriving DecidableEq, Repr

/-- `StopTimeInstance` of `types.py`: a stop time bound to a date, plus the
mutable realtime state: the `skipped` flag and the `_actual_arrival_time` /
`_actual_departure_time` override fields (initially `None`). -/
structure StopTimeInstance where
  trip_id : String
  sequence : Int
  stop_id : String
  arrival_time : Int
  departure_time : Int
  terminates : Bool
  date : Date
  skipped : Bool
  actual_arrival_override : Option Time
  actual_departure_override : Option Time
deriving DecidableEq, Repr

/-- `StopTimeInstance.scheduled_arrival_time` property of `types.py`. -/
def StopTimeInstance.scheduled_arrival_time (sti : StopTimeInstance) : Time :=
  dayStart sti.date + sti.arrival_time

/-- `StopTimeInstance.scheduled_departure_time` property of `types.py`. -/
def StopTimeInstance.scheduled_departure_time (sti : StopTimeInstance) : Time :=
  dayStart sti.date + sti.departure_time

/-- `StopTimeInstance.actual_arrival_time` property: the override if set
(`self._actual_arrival_time or self.scheduled_arrival_time`; a datetime is
never falsy, so this is exactly an `Option.getD`). -/
def StopTimeInstance.actual_arrival_time (sti : StopTimeInstance) : Time :=
  sti.actual_arrival_override.getD sti.scheduled_arrival_time

/-- `StopTimeInstance.actual_departure_time` property of `types.py`. -/
def StopTimeInstance.actual_departure_time (sti : StopTimeInstance) : Time :=
  sti.actual_departure_override.getD sti.scheduled_departure_time

-- endregion

-- region: GtfsDataStore state (src/bot/gtfs/store.py, __init__)

/-- Identity key of a `StopTimeInstance` reference held by the per-stop index:
the `(date, trip id, stop sequence)` triple, which are immutable attributes of
the referenced object and locate it in the by-date map. -/
abbrev StiKey := Date × String × Int

/-- The mutable state of `GtfsDataStore` (src/bot/gtfs/store.py lines 49-66).
Plain dicts are association lists; `defaultdict`s are total functions whose
value at a missing key is the default (`[]`). -/
@[ext]
structure Store where
  routes : List (String × Route)
  services_exceptions : String → List (Date × Bool)
  services : List (String × Service)
  trips : List (String × Trip)
  trips_by_route : String → List Trip
  trips_by_service : String → List Trip
  stops : List (String × Stop)
  children_stops : String → List Stop
  stop_times_by_trip : String → List StopTime
  route_types_by_stop : String → List RouteType
  trip_instances_by_date : Date → List (String × TripInstance)
  stop_time_instances_by_date : Date → List (String × List (Int × StopTimeInstance))
  stop_time_instances_by_stop : String → List StiKey

/-- Update one key of a `defaultdict`-modelling function. -/
def fupdate {α : Type} (f : String → α) (k : String) (v : α) : String → α :=
  fun s => if s = k then v else f s

/-- Python `set.add` on a set modelled as a duplicate-free list. -/
def setAdd {α : Type} [BEq α] (l : List α) (a : α) : List α :=
  if l.contains a then l else l ++ [a]

-- region: store operations (src/bot/gtfs/store.py)

/-- `add_service_exception` (store.py lines 99-108): stores
`data["exception_type"] == 1` under the raw (NOT lower-cased) service id and
the parsed date.  The row fields arrive already parsed
(`date : Date`, `exception_type : Int`). -/
def Store.add_service_exception (st : Store) (service_id : String) (date : Date)
    (exception_type : Int) : Store :=
  { st with
    services_exceptions :=
      fupdate st.services_exceptions service_id
        (dinsert (st.services_exceptions service_id) date (exception_type == 1)) }

/-- `get_service_exceptions` (store.py lines 346-360): reads the defaultdict
at the LOWER-CASED service id (missing key reads as the empty dict). -/
def Store.get_service_exceptions (st : Store) (service_id : String) :
    List (Date × Bool) :=
  st.services_exceptions (strLower service_id)

/-- `get_route` (store.py lines 300-318) with the default
`error_on_missing=True`: `self._routes.get(route_id.lower())`, raising
`ValueError` when absent. -/
def Store.get_route (st : Store) (route_id : String) : Except String Route :=
  match st.routes.lookup (strLower route_id) with
  | some r => .ok r
  | none => .error "Route not found"

/-- `get_service` (store.py lines 326-344) with `error_on_missing=True`. -/
def Store.get_service (st : Store) (service_id : String) : Except String Service :=
  match st.services.lookup (strLower service_id) with
  | some s => .ok s
  | none => .error "Service not found"

/-- `get_trip` (store.py lines 368-386) with `error_on_missing=True`. -/
def Store.get_trip (st : Store) (trip_id : String) : Except String Trip :=
  match st.trips.lookup (strLower trip_id) with
  | some t => .ok t
  | none => .error "Trip not found"

/-- `get_stop` (store.py lines 394-412) with `error_on_missing=True`. -/
def Store.get_stop (st : Store) (stop_id : String) : Except String Stop :=
  match st.stops.lookup (strLower stop_id) with
  | some s => .ok s
  | none => .error "Stop not found"

/-- `add_stop_time` (store.py lines 168-187): builds the `StopTime` with
lower-cased trip and stop ids, appends it to `_stop_times_by_trip`, resolves
`stop_time.trip` (a `get_trip`, `ValueError` when absent), indexes the owning
route's type (`self._routes[trip._route_id]`, `KeyError` when absent) into
`_route_types_by_stop[stop_time._stop_id]` — the stop's own id only.
On the error paths CPython has already performed the `_stop_times_by_trip`
append; no claim depends on that partially-mutated state, so the error result
carries no store. -/
def Store.add_stop_time (st : Store) (trip_id : String) (sequence : Int)
    (stop_id : String) (arrival_time departure_time : Int) (pickup_type : String) :
    Except String Store :=
  let stop_time : StopTime :=
    { trip_id := (strLower trip_id), sequence := sequence, stop_id := (strLower stop_id)
      arrival_time := arrival_time, departure_time := departure_time
      terminates := pickup_type == "1" }
  let st₁ : Store :=
    { st with
      stop_times_by_trip :=
        fupdate st.stop_times_by_trip stop_time.trip_id
          (st.stop_times_by_trip stop_time.trip_id ++ [stop_time]) }
  match st₁.get_trip stop_time.trip_id with
  | .error e => .error e
  | .ok trip =>
    match st₁.routes.lookup trip.route_id with
    | none => .error "KeyError"
    | some route =>
      .ok { st₁ with
        route_types_by_stop :=
          fupdate st₁.route_types_by_stop stop_time.stop_id
            (setAdd (st₁.route_types_by_stop stop_time.stop_id) route.type) }

/-- `stop_has_route_with_type` (store.py lines 431-446): membership of the
route type in the stop's own `_route_types_by_stop` entry. -/
def Store.stop_has_route_with_type (st : Store) (stop_id : String)
    (route_type : RouteType) : Bool :=
  (st.route_types_by_stop (strLower stop_id)).contains route_type

/-- `_walk_child_stop_ids` (store.py lines 414-429): yields the stop itself
then recursively every child's subtree.  The Python generator recurses with no
cycle guard; the embedding adds an explicit `fuel` bound, with `[]` on
exhaustion — the termination theorems show the result is fuel-independent once
`fuel` exceeds the height of the (acyclic) tree. -/
def Store.walk_child_stop_ids (st : Store) : Nat → String → List String
  | 0, _ => []
  | fuel + 1, parent_stop_id =>
    parent_stop_id ::
      (st.children_stops parent_stop_id).flatMap
        (fun stop => st.walk_child_stop_ids fuel stop.id)

/-- `get_stops_by_route_type` (store.py lines 448-466): yields `stop` once per
walked descendant id that has the route type. -/
def Store.get_stops_by_route_type (st : Store) (fuel : Nat)
    (route_type : RouteType) : List Stop :=
  st.stops.flatMap fun p =>
    ((st.walk_child_stop_ids fuel p.2.id).filter
      (fun sid => st.stop_has_route_with_type sid route_type)).map (fun _ => p.2)

/-- Dereference a per-stop index entry through the by-date map (the CPython
object reference held by `_stop_time_instances_by_stop`). -/
def Store.derefSti (st : Store) (k : StiKey) : Option StopTimeInstance :=
  ((st.stop_time_instances_by_date k.1).lookup k.2.1).bind fun inner =>
    inner.lookup k.2.2

/-- The stop-time-instance objects registered in the per-stop index of one
stop id. -/
def Store.registered_at (st : Store) (sid : String) : List StopTimeInstance :=
  (st.stop_time_instances_by_stop sid).filterMap st.derefSti

/-- `get_stop_time_instances_between` (store.py lines 558-588): all instances
registered under the walked subtree of the (lower-cased) stop id whose actual
departure time lies in `[start_time, end_time)`, sorted ascending by actual
departure time (`sorted` with key, a stable merge sort). -/
def Store.get_stop_time_instances_between (st : Store) (fuel : Nat)
    (stop_id : String) (start_time end_time : Time) : List StopTimeInstance :=
  ((st.walk_child_stop_ids fuel (strLower stop_id)).flatMap fun sid =>
    (st.registered_at (strLower sid)).filter fun sti =>
      decide (start_time ≤ sti.actual_departure_time) &&
        decide (sti.actual_departure_time < end_time)).mergeSort
    (fun a b => decide (a.actual_departure_time ≤ b.actual_departure_time))

/-- `remove_old_trip_instances` (store.py lines 189-204), with the ambient
`datetime.date.today()` passed explicitly: deletes every by-date entry whose
date key is older than yesterday and rewrites each per-stop index list keeping
only references whose instance date is at least yesterday. -/
def Store.remove_old_trip_instances (st : Store) (today : Date) : Store :=
  let yesterday := today - 1
  { st with
    trip_instances_by_date := fun d =>
      if d < yesterday then [] else st.trip_instances_by_date d
    stop_time_instances_by_date := fun d =>
      if d < yesterday then [] else st.stop_time_instances_by_date d
    stop_time_instances_by_stop := fun sid =>
      (st.stop_time_instances_by_stop sid).filter fun k => decide (k.1 ≥ yesterday) }

/-- `set_trip_instance_status` (store.py lines 228-240):
`self._trip_instances_by_date[date][trip_id.lower()].cancelled = cancelled`;
a missing trip id raises `KeyError` (the in-place attribute assignment is a
value replacement at the same key). -/
def Store.set_trip_instance_status (st : Store) (trip_id : String) (date : Date)
    (cancelled : Bool) : Except String Store :=
  match (st.trip_instances_by_date date).lookup (strLower trip_id) with
  | none => .error "KeyError"
  | some ti =>
    .ok { st with
      trip_instances_by_date := fun d =>
        if d = date then
          dinsert (st.trip_instances_by_date date) (strLower trip_id)
            { ti with cancelled := cancelled }
        else st.trip_instances_by_date d }

/-- Shared shape of the three per-stop-time setters (store.py lines 242-292):
`self._stop_time_instances_by_date[date][trip_id.lower()][stop_sequence]` with
a field update; the two outer levels are defaultdicts (missing reads as empty)
and the final subscript raises `KeyError` when the sequence is absent. -/
def Store.update_stop_time_instance (st : Store) (trip_id : String) (date : Date)
    (stop_sequence : Int) (f : StopTimeInstance → StopTimeInstance) :
    Except String Store :=
  let inner := ((st.stop_time_instances_by_date date).lookup (strLower trip_id)).getD []
  match inner.lookup stop_sequence with
  | none => .error "KeyError"
  | some sti =>
    .ok { st with
      stop_time_instances_by_date := fun d =>
        if d = date then
          dinsert (st.stop_time_instances_by_date date) (strLower trip_id)
            (dinsert inner stop_sequence (f sti))
        else st.stop_time_instances_by_date d }

/-- `set_stop_time_instance_status` (store.py lines 242-256). -/
def Store.set_stop_time_instance_status (st : Store) (trip_id : String)
    (date : Date) (stop_sequence : Int) (skipped : Bool) : Except String Store :=
  st.update_stop_time_instance trip_id date stop_sequence
    (fun sti => { sti with skipped := skipped })

/-- `set_stop_time_actual_arrival_time` (store.py lines 258-274). -/
def Store.set_stop_time_actual_arrival_time (st : Store) (trip_id : String)
    (date : Date) (stop_sequence : Int) (arrival_time : Time) :
    Except String Store :=
  st.update_stop_time_instance trip_id date stop_sequence
    (fun sti => { sti with actual_arrival_override := some arrival_time })

/-- `set_stop_time_actual_departure_time` (store.py lines 276-292). -/
def Store.set_stop_time_actual_departure_time (st : Store) (trip_id : String)
    (date : Date) (stop_sequence : Int) (departure_time : Time) :
    Except String Store :=
  st.update_stop_time_instance trip_id date stop_sequence
    (fun sti => { sti with actual_departure_override := some departure_time })

-- endregion

-- region: realtime applier (src/bot/gtfs/realtime.py, proto/types.py)

/-- Modelled from the spec: `GtfsDataStore.reset_realtime_data` is invoked by
the realtime handler (realtime.py line 71) but its definition is not among the
provided sources — only this caller is.  Spec §4.4: "If marked deleted, reset
all realtime state for that (trip id, start date) — equivalent to discarding
prior patches for that trip instance — rather than deleting the instance
itself."  Accordingly: the matching trip instance's `cancelled` flag and every
matching stop-time instance's `skipped` flag and actual arrival/departure
overrides return to their initial values; nothing is removed; the trip id is
lower-cased like every other store lookup. -/
def Store.reset_realtime_data (st : Store) (trip_id : String) (date : Date) :
    Store :=
  { st with
    trip_instances_by_date := fun d =>
      if d = date then
        (st.trip_instances_by_date d).map fun p =>
          if p.1 = (strLower trip_id) then (p.1, { p.2 with cancelled := false })
          else p
      else st.trip_instances_by_date d
    stop_time_instances_by_date := fun d =>
      if d = date then
        (st.stop_time_instances_by_date d).map fun p =>
          if p.1 = (strLower trip_id) then
            (p.1, p.2.map fun q =>
              (q.1, { q.2 with skipped := false, actual_arrival_override := none,
                               actual_departure_override := none }))
          else p
      else st.stop_time_instances_by_date d }

/-- `StopTimeEvent` of proto/types.py (only the `time` field is read). -/
structure StopTimeEvent where
  time : Option Int
deriving DecidableEq, Repr

/-- `StopTimeUpdate` of proto/types.py. -/
structure StopTimeUpdate where
  stop_sequence : Option Int
  stop_id : Option String
  arrival : Option StopTimeEvent
  departure : Option StopTimeEvent
  schedule_relationship : Int
deriving DecidableEq, Repr

/-- `TripDescriptor` of proto/types.py; `start_date` is carried already parsed
from its `"%Y%m%d"` string form. -/
structure TripDescriptor where
  trip_id : Option String
  start_date : Option Date
  schedule_relationship : Option Int
deriving DecidableEq, Repr

/-- `TripUpdate` of proto/types.py (fields the applier reads). -/
structure TripUpdate where
  trip : TripDescriptor
  stop_time_update : List StopTimeUpdate
deriving DecidableEq, Repr

/-- `FeedEntity` of proto/types.py (fields the applier reads). -/
structure FeedEntity where
  is_deleted : Option Bool
  trip_update : Option TripUpdate
deriving DecidableEq, Repr

/-- Python `datetime.fromtimestamp(t, utc).astimezone(BRISBANE)` on the
seconds axis: Brisbane is a fixed UTC+10 zone and the Unix epoch is ordinal
719163, so epoch second `t` is local second `719163 * 86400 + 36000 + t`. -/
def fromEpoch (t : Int) : Time := 719163 * 86400 + 36000 + t

/-- The arrival half of one `stop_time_update` iteration (realtime.py lines
88-92): only when the update carries an arrival event with a timestamp. -/
def applyArrivalEvent (trip_id : String) (start_date : Date) (seq : Int)
    (st : Store) (oev : Option StopTimeEvent) : Except String Store :=
  match oev with
  | some ev =>
    match ev.time with
    | some t =>
      st.set_stop_time_actual_arrival_time trip_id start_date seq (fromEpoch t)
    | none => .ok st
  | none => .ok st

/-- The departure half of one `stop_time_update` iteration (realtime.py lines
94-98). -/
def applyDepartureEvent (trip_id : String) (start_date : Date) (seq : Int)
    (st : Store) (oev : Option StopTimeEvent) : Except String Store :=
  match oev with
  | some ev =>
    match ev.time with
    | some t =>
      st.set_stop_time_actual_departure_time trip_id start_date seq (fromEpoch t)
    | none => .ok st
  | none => .ok st

/-- One `stop_time_update` iteration of `_process_trip_update`
(realtime.py lines 79-98). -/
def processStopTimeUpdate (trip_id : String) (start_date : Date) (st : Store)
    (stu : StopTimeUpdate) : Except String Store :=
  match stu.stop_id with
  | none => .ok st
  | some _ =>
    match stu.stop_sequence with
    | none => .ok st
    | some seq => do
      let skipped := stu.schedule_relationship == 1
      let st ← st.set_stop_time_instance_status trip_id start_date seq skipped
      let st ← applyArrivalEvent trip_id start_date seq st stu.arrival
      applyDepartureEvent trip_id start_date seq st stu.departure

/-- `RealtimeGtfsHandler._process_trip_update` (realtime.py lines 52-98):
skip without a trip id or start date; on a deletion reset the realtime state;
otherwise set the cancellation status (schedule relationship 3) and fold the
per-stop-time updates. -/
def processTripUpdate (st : Store) (trip_update : TripUpdate) (deleted : Bool) :
    Except String Store :=
  match trip_update.trip.trip_id with
  | none => .ok st
  | some trip_id =>
    match trip_update.trip.start_date with
    | none => .ok st
    | some start_date =>
      if deleted then .ok (st.reset_realtime_data trip_id start_date)
      else do
        let cancelled := trip_update.trip.schedule_relationship == some 3
        let st ← st.set_trip_instance_status trip_id start_date cancelled
        trip_update.stop_time_update.foldlM
          (processStopTimeUpdate trip_id start_date) st

/-- The per-entity body of `_update_gtfs_realtime_data` (realtime.py lines
109-115): entities without a trip update are skipped, and any exception from
`_process_trip_update` is swallowed (`except Exception: pass`), leaving the
store as it was. -/
def processEntity (st : Store) (e : FeedEntity) : Store :=
  match e.trip_update with
  | none => st
  | some trip_update =>
    match processTripUpdate st trip_update (e.is_deleted.getD false) with
    | .ok st' => st'
    | .error _ => st

-- endregion

-- region: instance materialisation (src/bot/gtfs/store.py lines 206-226)

/-- Insert a trip instance at
`self._trip_instances_by_date[date][trip_id] = ...`. -/
def Store.insert_ti (st : Store) (date : Date) (tid : String) (ti : TripInstance) :
    Store :=
  { st with
    trip_instances_by_date := fun d =>
      if d = date then dinsert (st.trip_instances_by_date date) tid ti
      else st.trip_instances_by_date d }

/-- Insert a stop-time instance at
`self._stop_time_instances_by_date[date][trip_id][sequence] = ...` (the middle
defaultdict reads as empty when the trip id is new). -/
def Store.insert_sti (st : Store) (date : Date) (tid : String) (seq : Int)
    (sti : StopTimeInstance) : Store :=
  { st with
    stop_time_instances_by_date := fun d =>
      if d = date then
        dinsert (st.stop_time_instances_by_date date) tid
          (dinsert (((st.stop_time_instances_by_date date).lookup tid).getD [])
            seq sti)
      else st.stop_time_instances_by_date d }

/-- `TripInstance.__init__` (types.py lines 453-471): copies the trip's fields,
resolving `trip.route` and `trip.service` through the store (each a `get_*`
that raises when absent), and starts with `cancelled = False`. -/
def mkTripInstance (st : Store) (trip : Trip) (date : Date) :
    Except String TripInstance := do
  let route ← st.get_route trip.route_id
  let service ← st.get_service trip.service_id
  .ok { id := trip.id, route_id := route.id, service_id := service.id,
        headsign := trip.headsign, direction := trip.direction,
        date := date, cancelled := false }

/-- `StopTimeInstance.__init__` (types.py lines 505-526): copies the stop
time's fields, resolving `stop_time.trip` and `stop_time.stop` through the
store, and starts with `skipped = False` and no actual-time overrides. -/
def mkStopTimeInstance (st : Store) (stop_time : StopTime) (date : Date) :
    Except String StopTimeInstance := do
  let trip ← st.get_trip stop_time.trip_id
  let stop ← st.get_stop stop_time.stop_id
  .ok { trip_id := trip.id, sequence := stop_time.sequence, stop_id := stop.id,
        arrival_time := stop_time.arrival_time,
        departure_time := stop_time.departure_time,
        terminates := stop_time.terminates, date := date, skipped := false,
        actual_arrival_override := none, actual_departure_override := none }

/-- The inner loop of `create_trip_instances` (store.py lines 219-222): one
`StopTimeInstance` per stop time of the trip. -/
def addStopTimeInstancesForTrip (date : Date) (tid : String) (st : Store)
    (stop_times : List StopTime) : Except String Store :=
  stop_times.foldlM
    (fun st stop_time => do
      let sti ← mkStopTimeInstance st stop_time date
      .ok (st.insert_sti date tid stop_time.sequence sti))
    st

/-- One iteration of `for trip_id, trip in self._trips.items()` (store.py
lines 215-222): `self._services[trip._service_id]` (plain subscript, KeyError
when absent), then materialise the trip instance and its stop-time instances
when `service.runs_on(date)`. -/
def createInstancesForTrip (date : Date) (st : Store) (p : String × Trip) :
    Except String Store :=
  match st.services.lookup p.2.service_id with
  | none => .error "KeyError"
  | some service =>
    if service.runs_on date then do
      let ti ← mkTripInstance st p.2 date
      addStopTimeInstancesForTrip date p.1 (st.insert_ti date p.1 ti)
        (st.stop_times_by_trip p.1)
    else .ok st

/-- One append of the index-rebuild loop (store.py line 226): push a
reference to the stop-time instance onto
`_stop_time_instances_by_stop[instance._stop_id]`. -/
def appendStiRef (acc : Store) (q : Int × StopTimeInstance) : Store :=
  { acc with
    stop_time_instances_by_stop :=
      fupdate acc.stop_time_instances_by_stop q.2.stop_id
        (acc.stop_time_instances_by_stop q.2.stop_id ++
          [(q.2.date, q.2.trip_id, q.2.sequence)]) }

/-- The index-rebuild loop of `create_trip_instances` (store.py lines
224-226): append a reference to every stop-time instance of the date into
`_stop_time_instances_by_stop[instance._stop_id]`. -/
def rebuildStopIndexForDate (st : Store) (date : Date) : Store :=
  (st.stop_time_instances_by_date date).foldl
    (fun acc p => p.2.foldl appendStiRef acc) st

/-- The per-date body of `create_trip_instances` (store.py lines 213-226):
guarded by `if not self._trip_instances_by_date[date]`. -/
def createForDate (st : Store) (date : Date) : Except String Store :=
  if (st.trip_instances_by_date date).isEmpty then do
    let st₁ ← st.trips.foldlM (createInstancesForTrip date) st
    .ok (rebuildStopIndexForDate st₁ date)
  else .ok st

/-- `create_trip_instances` (store.py lines 206-226), with the ambient
`datetime.date.today()` passed explicitly: processes yesterday, today and
tomorrow in order. -/
def Store.create_trip_instances (st : Store) (today : Date) :
    Except String Store :=
  [today - 1, today, today + 1].foldlM createForDate st

-- endregion

-- region: views and auxiliary relations used by the theorems

/-- The store state after a call whose Python counterpart may raise: the new
state on success, the unmodified pre-call state when the exception
propagates. -/
def afterCall (st : Store) (r : Except String Store) : Store :=
  match r with
  | .ok st' => st'
  | .error _ => st

/-- The static half of the store: every map populated by the static loader
and every derived static index (nothing realtime). -/
structure StaticView where
  routes : List (String × Route)
  services_exceptions : String → List (Date × Bool)
  services : List (String × Service)
  trips : List (String × Trip)
  trips_by_route : String → List Trip
  trips_by_service : String → List Trip
  stops : List (String × Stop)
  children_stops : String → List Stop
  stop_times_by_trip : String → List StopTime
  route_types_by_stop : String → List RouteType

/-- Project a store onto its static half. -/
def Store.staticView (st : Store) : StaticView :=
  { routes := st.routes, services_exceptions := st.services_exceptions,
    services := st.services, trips := st.trips,
    trips_by_route := st.trips_by_route,
    trips_by_service := st.trips_by_service, stops := st.stops,
    children_stops := st.children_stops,
    stop_times_by_trip := st.stop_times_by_trip,
    route_types_by_stop := st.route_types_by_stop }

/-- One parent-to-child edge of the station tree: `b` is the id of a direct
child stop of `a` in `_children_stops`. -/
def childStep (st : Store) (a b : String) : Prop :=
  b ∈ (st.children_stops a).map Stop.id

/-- The freshly-constructed store (`__init__`): every map empty — used as a
base state for concrete evaluations. -/
def emptyStore : Store :=
  { routes := [], services_exceptions := fun _ => [], services := [],
    trips := [], trips_by_route := fun _ => [],
    trips_by_service := fun _ => [], stops := [],
    children_stops := fun _ => [], stop_times_by_trip := fun _ => [],
    route_types_by_stop := fun _ => [],
    trip_instances_by_date := fun _ => [],
    stop_time_instances_by_date := fun _ => [],
    stop_time_instances_by_stop := fun _ => [] }

/-- Concrete platform stop used in concrete evaluations: child "c1" of
station "p1". -/
def stopC1 : Stop :=
  { id := "c1", name := "Platform 1", url := "", type := LocationType.stop,
    parent_station_id := some "p1", platform_code := some "1" }

/-- Concrete parent station "p1". -/
def stopP1 : Stop :=
  { id := "p1", name := "Station", url := "", type := LocationType.station,
    parent_station_id := none, platform_code := none }

/-- Concrete stop-time instance at "c1" on date 5 (departure offset 120s). -/
def stiC1 : StopTimeInstance :=
  { trip_id := "t1", sequence := 1, stop_id := "c1", arrival_time := 60,
    departure_time := 120, terminates := false, date := 5, skipped := false,
    actual_arrival_override := none, actual_departure_override := none }

/-- Concrete store with the two-level station tree "p1" → "c1", one
materialised stop-time instance at "c1" on date 5, and a route-type entry at
"c1". -/
def treeStore : Store :=
  { emptyStore with
    stops := [("p1", stopP1), ("c1", stopC1)],
    children_stops := fun s => if s = "p1" then [stopC1] else [],
    route_types_by_stop := fun s => if s = "c1" then [RouteType.rail] else [],
    stop_time_instances_by_date := fun d =>
      if d = 5 then [("t1", [(1, stiC1)])] else [],
    stop_time_instances_by_stop := fun s =>
      if s = "c1" then [(5, "t1", 1)] else [] }

/-- Height certificate for `treeStore`'s station tree. -/
def treeRank : String → Nat := fun s => if s = "p1" then 1 else 0

/-- Concrete service running every weekday over a wide date range. -/
def dailyService : Service :=
  { id := "s1", days := [0, 1, 2, 3, 4, 5, 6], start_date := 0,
    end_date := 100000, exceptions := [] }

/-- Concrete store loaded with one route, one daily service, one trip with a
single stop time at "c1" — a state in which `create_trip_instances` really
materialises instances. -/
def loadedStore : Store :=
  { emptyStore with
    routes := [("r1",
      { id := "r1", short_name := "R", long_name := "Rail",
        type := RouteType.rail })],
    services := [("s1", dailyService)],
    trips := [("t1",
      { id := "t1", route_id := "r1", service_id := "s1", headsign := "X",
        direction := Direction.upward })],
    stops := [("c1", stopC1)],
    stop_times_by_trip := fun t =>
      if t = "t1" then
        [{ trip_id := "t1", sequence := 1, stop_id := "c1",
           arrival_time := 60, departure_time := 120, terminates := false }]
      else [] }

-- endregion

-- region: THEOREMS-ANCHOR

-- region: dictionary lemmas

theorem dinsert_ne_nil {κ α : Type} [BEq κ] (m : List (κ × α)) (k : κ) (v : α) :
    dinsert m k v ≠ [] := by
  cases m with
  | nil => simp [dinsert]
  | cons p rest =>
    simp only [dinsert]
    split <;> simp

theorem lookup_dinsert_self {κ α : Type} [BEq κ] [LawfulBEq κ]
    (m : List (κ × α)) (k : κ) (v : α) : (dinsert m k v).lookup k = some v := by
  induction m with
  | nil => simp [dinsert]
  | cons p rest ih =>
    obtain ⟨a, b⟩ := p
    by_cases h : a = k
    · subst h
      simp [dinsert, List.lookup_cons]
    · simp [dinsert, beq_eq_false_iff_ne.mpr h, List.lookup_cons,
        beq_eq_false_iff_ne.mpr (Ne.symm h), ih]

theorem lookup_dinsert_ne {κ α : Type} [BEq κ] [LawfulBEq κ]
    (m : List (κ × α)) (k k' : κ) (v : α) (h : k' ≠ k) :
    (dinsert m k v).lookup k' = m.lookup k' := by
  induction m with
  | nil => simp [dinsert, List.lookup_cons, beq_eq_false_iff_ne.mpr h]
  | cons p rest ih =>
    obtain ⟨a, b⟩ := p
    by_cases ha : a = k
    · subst ha
      simp [dinsert, List.lookup_cons, beq_eq_false_iff_ne.mpr h]
    · simp only [dinsert, beq_eq_false_iff_ne.mpr ha, if_false]
      cases hq : k' == a <;> simp [List.lookup_cons, hq, ih]

theorem lookup_map_value {κ α β : Type} [BEq κ]
    (m : List (κ × α)) (g : α → β) (k : κ) :
    (m.map fun q => (q.1, g q.2)).lookup k = (m.lookup k).map g := by
  induction m with
  | nil => simp
  | cons p rest ih =>
    obtain ⟨a, b⟩ := p
    cases hq : k == a <;> simp [List.lookup_cons, hq, ih]

theorem lookup_mapIf_self {α : Type} (m : List (String × α)) (f : α → α)
    (k : String) :
    ((m.map fun p => if p.1 = k then (p.1, f p.2) else p).lookup k) =
      (m.lookup k).map f := by
  induction m with
  | nil => simp
  | cons p rest ih =>
    obtain ⟨a, b⟩ := p
    by_cases h : a = k
    · subst h
      simp [List.lookup_cons, ih]
    · simp [List.lookup_cons, h, beq_eq_false_iff_ne.mpr (Ne.symm h), ih]

theorem lookup_mapIf_ne {α : Type} (m : List (String × α)) (f : α → α)
    (k k' : String) (h : k' ≠ k) :
    ((m.map fun p => if p.1 = k then (p.1, f p.2) else p).lookup k') =
      m.lookup k' := by
  induction m with
  | nil => simp
  | cons p rest ih =>
    obtain ⟨a, b⟩ := p
    by_cases ha : a = k
    · subst ha
      simp [List.lookup_cons, beq_eq_false_iff_ne.mpr h, ih]
    · simp only [List.map_cons, ha, if_false]
      cases hq : k' == a <;> simp [List.lookup_cons, hq, ih]

theorem setAdd_contains_self {α : Type} [BEq α] [LawfulBEq α] (l : List α)
    (a : α) : (setAdd l a).contains a = true := by
  unfold setAdd
  split
  · assumption
  · simp

theorem except_bind_ok {α β : Type} {a : Except String α}
    {f : α → Except String β} {c : β} (h : a >>= f = .ok c) :
    ∃ b, a = .ok b ∧ f b = .ok c := by
  cases a with
  | ok b => exact ⟨b, rfl, h⟩
  | error e => simp [Bind.bind, Except.bind] at h

-- endregion

-- Claim C3 -------------------------------------------------------------------

/-- C3.  When the store holds no `TripInstance` under `(trip_id, date)` and no
`StopTimeInstance` under `(trip_id, date, seq)`, every realtime setter with
that key raises (models `KeyError`) while the store state after the call is
the unchanged pre-call state, and the applier loop — whose per-entity
`except Exception: pass` swallows the failure — maps the store to itself on
any non-deleted feed entity addressing that `(trip_id, date)`. -/
theorem realtime_setter_missing_instance_noop (st : Store) (trip_id : String)
    (date : Date) (seq : Int)
    (hti : (st.trip_instances_by_date date).lookup (strLower trip_id) = none)
    (hsti : (((st.stop_time_instances_by_date date).lookup
        (strLower trip_id)).getD []).lookup seq = none) :
    (∀ c, st.set_trip_instance_status trip_id date c = .error "KeyError" ∧
      afterCall st (st.set_trip_instance_status trip_id date c) = st) ∧
    (∀ sk, st.set_stop_time_instance_status trip_id date seq sk =
        .error "KeyError" ∧
      afterCall st (st.set_stop_time_instance_status trip_id date seq sk) = st) ∧
    (∀ t, st.set_stop_time_actual_arrival_time trip_id date seq t =
        .error "KeyError" ∧
      afterCall st (st.set_stop_time_actual_arrival_time trip_id date seq t) = st) ∧
    (∀ t, st.set_stop_time_actual_departure_time trip_id date seq t =
        .error "KeyError" ∧
      afterCall st (st.set_stop_time_actual_departure_time trip_id date seq t) = st) ∧
    (∀ (e : FeedEntity) (u : TripUpdate), e.trip_update = some u →
      u.trip.trip_id = some trip_id → u.trip.start_date = some date →
      e.is_deleted.getD false = false → processEntity st e = st) := by
  have h1 : ∀ c, st.set_trip_instance_status trip_id date c = .error "KeyError" := by
    intro c
    simp [Store.set_trip_instance_status, hti]
  have h2 : ∀ f, st.update_stop_time_instance trip_id date seq f =
      .error "KeyError" := by
    intro f
    simp [Store.update_stop_time_instance, hsti]
  refine ⟨fun c => ⟨h1 c, by simp [afterCall, h1 c]⟩,
    fun sk => ⟨h2 _, by simp [afterCall, Store.set_stop_time_instance_status, h2]⟩,
    fun t => ⟨h2 _, by simp [afterCall, Store.set_stop_time_actual_arrival_time, h2]⟩,
    fun t => ⟨h2 _, by simp [afterCall, Store.set_stop_time_actual_departure_time, h2]⟩,
    fun e u he htid hdate hdel => ?_⟩
  simp only [processEntity, he]
  simp only [processTripUpdate, htid, hdate, hdel, if_false, Bool.false_eq_true,
    h1, Bind.bind, Except.bind]

/-- C3 witness: the empty store with trip id "T1", date 5 and sequence 2; all
four setters report the failure with the state unchanged and the applier
swallows a non-deleted entity for that key. -/
theorem realtime_setter_missing_instance_noop_witness :
    (let e : FeedEntity :=
      { is_deleted := none,
        trip_update := some
          { trip := { trip_id := some "T1", start_date := some 5,
                      schedule_relationship := some 3 },
            stop_time_update := [] } }
     emptyStore.set_trip_instance_status "T1" 5 true = .error "KeyError" ∧
     afterCall emptyStore (emptyStore.set_stop_time_instance_status "T1" 5 2 true) =
       emptyStore ∧
     afterCall emptyStore
       (emptyStore.set_stop_time_actual_arrival_time "T1" 5 2 0) = emptyStore ∧
     afterCall emptyStore
       (emptyStore.set_stop_time_actual_departure_time "T1" 5 2 0) = emptyStore ∧
     processEntity emptyStore e = emptyStore) := by
  have h := realtime_setter_missing_instance_noop emptyStore
    "T1" 5 2 (by rfl) (by rfl)
  exact ⟨(h.1 true).1, (h.2.1 true).2, (h.2.2.1 0).2, (h.2.2.2.1 0).2,
    h.2.2.2.2 _ _ rfl rfl rfl rfl⟩

-- region: frame lemmas for the realtime mutations

theorem set_trip_instance_status_ok {st st' : Store} {tid : String} {d : Date}
    {c : Bool} (h : st.set_trip_instance_status tid d c = .ok st') :
    ∃ ti, (st.trip_instances_by_date d).lookup (strLower tid) = some ti ∧
      st' = { st with
        trip_instances_by_date := fun d' =>
          if d' = d then
            dinsert (st.trip_instances_by_date d) (strLower tid)
              { ti with cancelled := c }
          else st.trip_instances_by_date d' } := by
  unfold Store.set_trip_instance_status at h
  cases hl : (st.trip_instances_by_date d).lookup (strLower tid) with
  | none => rw [hl] at h; cases h
  | some ti =>
    rw [hl] at h
    cases h
    exact ⟨ti, rfl, rfl⟩

theorem update_stop_time_instance_ok {st st' : Store} {tid : String} {d : Date}
    {seq : Int} {f : StopTimeInstance → StopTimeInstance}
    (h : st.update_stop_time_instance tid d seq f = .ok st') :
    ∃ inner sti,
      (st.stop_time_instances_by_date d).lookup (strLower tid) = some inner ∧
      inner.lookup seq = some sti ∧
      st' = { st with
        stop_time_instances_by_date := fun d' =>
          if d' = d then
            dinsert (st.stop_time_instances_by_date d) (strLower tid)
              (dinsert inner seq (f sti))
          else st.stop_time_instances_by_date d' } := by
  unfold Store.update_stop_time_instance at h
  cases hl : (st.stop_time_instances_by_date d).lookup (strLower tid) with
  | none => rw [hl] at h; simp at h
  | some inner =>
    rw [hl] at h
    simp only [Option.getD_some] at h
    cases hs : inner.lookup seq with
    | none => rw [hs] at h; cases h
    | some sti =>
      rw [hs] at h
      cases h
      exact ⟨inner, sti, rfl, hs, rfl⟩

theorem update_stop_time_instance_frame {st st' : Store} {tid : String}
    {d : Date} {seq : Int} {f : StopTimeInstance → StopTimeInstance}
    (h : st.update_stop_time_instance tid d seq f = .ok st') :
    st'.staticView = st.staticView ∧
    st'.trip_instances_by_date = st.trip_instances_by_date ∧
    st'.stop_time_instances_by_stop = st.stop_time_instances_by_stop := by
  obtain ⟨inner, sti, _, _, rfl⟩ := update_stop_time_instance_ok h
  exact ⟨rfl, rfl, rfl⟩

theorem frame_processStopTimeUpdate {tid : String} {d : Date} {st st' : Store}
    {stu : StopTimeUpdate}
    (h : processStopTimeUpdate tid d st stu = .ok st') :
    st'.staticView = st.staticView ∧
    st'.trip_instances_by_date = st.trip_instances_by_date ∧
    st'.stop_time_instances_by_stop = st.stop_time_instances_by_stop := by
  unfold processStopTimeUpdate at h
  rcases stu with ⟨oseq, oid, oarr, odep, rel⟩
  rcases oid with _ | sid
  · cases h; exact ⟨rfl, rfl, rfl⟩
  rcases oseq with _ | seq
  · cases h; exact ⟨rfl, rfl, rfl⟩
  simp only at h
  obtain ⟨st₁, h₁, h⟩ := except_bind_ok h
  obtain ⟨f₁, f₂, f₃⟩ := update_stop_time_instance_frame h₁
  obtain ⟨st₂, h₂, h₃⟩ := except_bind_ok h
  have frame₂ : st₂.staticView = st₁.staticView ∧
      st₂.trip_instances_by_date = st₁.trip_instances_by_date ∧
      st₂.stop_time_instances_by_stop = st₁.stop_time_instances_by_stop := by
    rcases oarr with _ | ⟨_ | t⟩ <;>
      simp only [applyArrivalEvent] at h₂
    · cases h₂; exact ⟨rfl, rfl, rfl⟩
    · cases h₂; exact ⟨rfl, rfl, rfl⟩
    · exact update_stop_time_instance_frame h₂
  have frame₃ : st'.staticView = st₂.staticView ∧
      st'.trip_instances_by_date = st₂.trip_instances_by_date ∧
      st'.stop_time_instances_by_stop = st₂.stop_time_instances_by_stop := by
    rcases odep with _ | ⟨_ | t⟩ <;>
      simp only [applyDepartureEvent] at h₃
    · cases h₃; exact ⟨rfl, rfl, rfl⟩
    · cases h₃; exact ⟨rfl, rfl, rfl⟩
    · exact update_stop_time_instance_frame h₃
  exact ⟨frame₃.1.trans (frame₂.1.trans f₁),
    frame₃.2.1.trans (frame₂.2.1.trans f₂),
    frame₃.2.2.trans (frame₂.2.2.trans f₃)⟩

theorem frame_foldl_stu {tid : String} {d : Date} :
    ∀ (l : List StopTimeUpdate) (st st' : Store),
      l.foldlM (processStopTimeUpdate tid d) st = .ok st' →
      st'.staticView = st.staticView ∧
      st'.stop_time_instances_by_stop = st.stop_time_instances_by_stop
  | [], st, st', h => by cases h; exact ⟨rfl, rfl⟩
  | stu :: rest, st, st', h => by
    rw [List.foldlM_cons] at h
    obtain ⟨st₁, h₁, h₂⟩ := except_bind_ok h
    obtain ⟨f₁, _, f₃⟩ := frame_processStopTimeUpdate h₁
    obtain ⟨g₁, g₃⟩ := frame_foldl_stu rest st₁ st' h₂
    exact ⟨g₁.trans f₁, g₃.trans f₃⟩

theorem frame_processTripUpdate {st st' : Store} {u : TripUpdate} {b : Bool}
    (h : processTripUpdate st u b = .ok st') :
    st'.staticView = st.staticView ∧
    st'.stop_time_instances_by_stop = st.stop_time_instances_by_stop := by
  unfold processTripUpdate at h
  rcases htid : u.trip.trip_id with _ | tid
  · rw [htid] at h; cases h; exact ⟨rfl, rfl⟩
  rw [htid] at h
  rcases hdate : u.trip.start_date with _ | d
  · rw [hdate] at h; cases h; exact ⟨rfl, rfl⟩
  rw [hdate] at h
  rcases b with _ | _
  · simp only [if_false, Bool.false_eq_true] at h
    obtain ⟨st₁, h₁, h₂⟩ := except_bind_ok h
    obtain ⟨ti, _, rfl⟩ := set_trip_instance_status_ok h₁
    obtain ⟨g₁, g₃⟩ := frame_foldl_stu _ _ _ h₂
    exact ⟨g₁, g₃⟩
  · simp only [if_true] at h
    cases h
    exact ⟨rfl, rfl⟩

theorem frame_processEntity (st : Store) (e : FeedEntity) :
    (processEntity st e).staticView = st.staticView ∧
    (processEntity st e).stop_time_instances_by_stop =
      st.stop_time_instances_by_stop := by
  unfold processEntity
  rcases e with ⟨odel, oupd⟩
  rcases oupd with _ | u
  · exact ⟨rfl, rfl⟩
  simp only
  cases h : processTripUpdate st u (odel.getD false) with
  | ok st' => exact frame_processTripUpdate h
  | error _ => exact ⟨rfl, rfl⟩

-- endregion

-- Claim C9 -------------------------------------------------------------------

/-- C9.  No realtime mutation — the four store setters or the applier's
processing of one feed entity — modifies any static entity map or derived
static index (`staticView` collects routes, service exceptions, services,
trips, trips-by-route, trips-by-service, stops, children-stops,
stop-times-by-trip and route-types-by-stop); the per-stop realtime index is
also untouched, and only the targeted instance's realtime fields differ:
every other date, every other trip id, every other stop sequence reads
unchanged, and the targeted instance changes exactly its `cancelled` /
`skipped` / actual-time-override field. -/
theorem realtime_mutation_static_frame :
    (∀ (st : Store) (tid : String) (d : Date) (c : Bool),
      (afterCall st (st.set_trip_instance_status tid d c)).staticView =
        st.staticView) ∧
    (∀ (st : Store) (tid : String) (d : Date) (seq : Int) (sk : Bool),
      (afterCall st (st.set_stop_time_instance_status tid d seq sk)).staticView =
        st.staticView) ∧
    (∀ (st : Store) (tid : String) (d : Date) (seq : Int) (t : Time),
      (afterCall st
        (st.set_stop_time_actual_arrival_time tid d seq t)).staticView =
        st.staticView) ∧
    (∀ (st : Store) (tid : String) (d : Date) (seq : Int) (t : Time),
      (afterCall st
        (st.set_stop_time_actual_departure_time tid d seq t)).staticView =
        st.staticView) ∧
    (∀ (st : Store) (e : FeedEntity),
      (processEntity st e).staticView = st.staticView ∧
      (processEntity st e).stop_time_instances_by_stop =
        st.stop_time_instances_by_stop) ∧
    (∀ (st : Store) (tid : String) (d : Date) (c : Bool) (st' : Store),
      st.set_trip_instance_status tid d c = .ok st' →
      st'.stop_time_instances_by_date = st.stop_time_instances_by_date ∧
      st'.stop_time_instances_by_stop = st.stop_time_instances_by_stop ∧
      (∀ d', d' ≠ d →
        st'.trip_instances_by_date d' = st.trip_instances_by_date d') ∧
      (∀ k, k ≠ strLower tid →
        (st'.trip_instances_by_date d).lookup k =
          (st.trip_instances_by_date d).lookup k) ∧
      (∀ ti, (st.trip_instances_by_date d).lookup (strLower tid) = some ti →
        (st'.trip_instances_by_date d).lookup (strLower tid) =
          some { ti with cancelled := c })) ∧
    (∀ (st : Store) (tid : String) (d : Date) (seq : Int)
        (f : StopTimeInstance → StopTimeInstance) (st' : Store),
      st.update_stop_time_instance tid d seq f = .ok st' →
      st'.trip_instances_by_date = st.trip_instances_by_date ∧
      st'.stop_time_instances_by_stop = st.stop_time_instances_by_stop ∧
      (∀ d', d' ≠ d →
        st'.stop_time_instances_by_date d' = st.stop_time_instances_by_date d') ∧
      (∀ k, k ≠ strLower tid →
        (st'.stop_time_instances_by_date d).lookup k =
          (st.stop_time_instances_by_date d).lookup k) ∧
      (∀ s', s' ≠ seq →
        st'.derefSti (d, strLower tid, s') = st.derefSti (d, strLower tid, s')) ∧
      (∀ sti, st.derefSti (d, strLower tid, seq) = some sti →
        st'.derefSti (d, strLower tid, seq) = some (f sti))) := by
  have hupd : ∀ (st : Store) tid d seq f,
      (afterCall st (st.update_stop_time_instance tid d seq f)).staticView =
        st.staticView := by
    intro st tid d seq f
    cases h : st.update_stop_time_instance tid d seq f with
    | ok st' => exact (update_stop_time_instance_frame h).1
    | error _ => rfl
  refine ⟨?_, fun st tid d seq sk => hupd st tid d seq _,
    fun st tid d seq t => hupd st tid d seq _,
    fun st tid d seq t => hupd st tid d seq _,
    frame_processEntity, ?_, ?_⟩
  · intro st tid d c
    cases h : st.set_trip_instance_status tid d c with
    | ok st' =>
      obtain ⟨ti, _, rfl⟩ := set_trip_instance_status_ok h
      rfl
    | error _ => rfl
  · intro st tid d c st' h
    obtain ⟨ti, hl, rfl⟩ := set_trip_instance_status_ok h
    refine ⟨rfl, rfl, fun d' hd' => by simp [hd'], fun k hk => ?_, fun ti' hti' => ?_⟩
    · simp only [if_pos rfl]
      exact lookup_dinsert_ne _ _ _ _ hk
    · simp only [if_pos rfl]
      rw [hl] at hti'
      cases hti'
      exact lookup_dinsert_self _ _ _
  · intro st tid d seq f st' h
    obtain ⟨inner, sti, hl, hs, rfl⟩ := update_stop_time_instance_ok h
    refine ⟨rfl, rfl, fun d' hd' => by simp [hd'], fun k hk => ?_, fun s' hs' => ?_,
      fun sti' hsti' => ?_⟩
    · simp only [if_pos rfl]
      exact lookup_dinsert_ne _ _ _ _ hk
    · simp only [Store.derefSti, eq_self_iff_true, if_true]
      rw [lookup_dinsert_self, hl]
      simp only [Option.some_bind]
      exact lookup_dinsert_ne _ _ _ _ hs'
    · simp only [Store.derefSti, eq_self_iff_true, if_true] at hsti' ⊢
      rw [hl] at hsti'
      simp only [Option.some_bind] at hsti'
      rw [hs] at hsti'
      cases hsti'
      rw [lookup_dinsert_self]
      simp only [Option.some_bind]
      exact lookup_dinsert_self _ _ _

/-- C9 witness: a store holding one trip instance and one stop-time instance
for trip "t1" on date 5; setting the cancelled flag changes exactly that
instance, and the stop-time maps, static view and other keys are untouched. -/
theorem realtime_mutation_static_frame_witness :
    (let ti : TripInstance :=
      { id := "t1", route_id := "r1", service_id := "s1", headsign := "X",
        direction := Direction.upward, date := 5, cancelled := false }
     let st : Store :=
      { emptyStore with
        trip_instances_by_date := fun d => if d = 5 then [("t1", ti)] else [] }
     let st' : Store :=
      { st with
        trip_instances_by_date := fun d' =>
          if d' = 5 then
            dinsert (st.trip_instances_by_date 5) (strLower "t1")
              { ti with cancelled := true }
          else st.trip_instances_by_date d' }
     st.set_trip_instance_status "t1" 5 true = .ok st' →
      st'.stop_time_instances_by_date = st.stop_time_instances_by_date ∧
      st'.stop_time_instances_by_stop = st.stop_time_instances_by_stop ∧
      (∀ d', d' ≠ 5 →
        st'.trip_instances_by_date d' = st.trip_instances_by_date d') ∧
      (∀ k, k ≠ strLower "t1" →
        (st'.trip_instances_by_date 5).lookup k =
          (st.trip_instances_by_date 5).lookup k) ∧
      (∀ ti', (st.trip_instances_by_date 5).lookup (strLower "t1") = some ti' →
        (st'.trip_instances_by_date 5).lookup (strLower "t1") =
          some { ti' with cancelled := true })) ∧
    (let st0 : Store := emptyStore
     (processEntity st0 { is_deleted := none, trip_update := none }).staticView =
       st0.staticView) := by
  exact ⟨fun h => realtime_mutation_static_frame.2.2.2.2.2.1 _ "t1" 5 true _ h,
    (realtime_mutation_static_frame.2.2.2.2.1 emptyStore _).1⟩

-- Claim C4 -------------------------------------------------------------------

/-- C4.  When the applier processes a feed entity marked deleted that carries
a trip id and a start date, all realtime state of the matching
`(trip id, start date)` instance is reset — the trip instance's `cancelled`
flag, every stop-time instance's `skipped` flag and every actual
arrival/departure override return to their initial values — while the
`TripInstance` and its `StopTimeInstance`s remain present (a found key is
still found, with only realtime fields reset); nothing else in the store
changes (static view, per-stop index, other dates, other trips untouched).
`reset_realtime_data` itself is modelled from the spec, its definition being
absent from the provided sources. -/
theorem process_deleted_entity_resets_realtime (st : Store) (e : FeedEntity)
    (u : TripUpdate) (tid : String) (d : Date)
    (he : e.trip_update = some u) (hd : e.is_deleted.getD false = true)
    (htid : u.trip.trip_id = some tid) (hdate : u.trip.start_date = some d) :
    (processEntity st e).staticView = st.staticView ∧
    (processEntity st e).stop_time_instances_by_stop =
      st.stop_time_instances_by_stop ∧
    (∀ d', d' ≠ d →
      (processEntity st e).trip_instances_by_date d' =
        st.trip_instances_by_date d' ∧
      (processEntity st e).stop_time_instances_by_date d' =
        st.stop_time_instances_by_date d') ∧
    (∀ k, k ≠ strLower tid →
      ((processEntity st e).trip_instances_by_date d).lookup k =
        (st.trip_instances_by_date d).lookup k ∧
      ((processEntity st e).stop_time_instances_by_date d).lookup k =
        (st.stop_time_instances_by_date d).lookup k) ∧
    (∀ ti, (st.trip_instances_by_date d).lookup (strLower tid) = some ti →
      ((processEntity st e).trip_instances_by_date d).lookup (strLower tid) =
        some { ti with cancelled := false }) ∧
    (∀ seq sti, st.derefSti (d, strLower tid, seq) = some sti →
      (processEntity st e).derefSti (d, strLower tid, seq) =
        some { sti with skipped := false, actual_arrival_override := none,
                        actual_departure_override := none }) := by
  have hpe : processEntity st e = st.reset_realtime_data tid d := by
    simp only [processEntity, he]
    simp only [processTripUpdate, htid, hdate, hd, if_true]
  rw [hpe]
  refine ⟨rfl, rfl, fun d' hd' => ?_, fun k hk => ?_, fun ti hti => ?_,
    fun seq sti hsti => ?_⟩
  · constructor <;> simp [Store.reset_realtime_data, hd']
  · constructor
    · simp only [Store.reset_realtime_data, eq_self_iff_true, if_true]
      exact lookup_mapIf_ne (st.trip_instances_by_date d)
        (fun ti => { ti with cancelled := false }) (strLower tid) k hk
    · simp only [Store.reset_realtime_data, eq_self_iff_true, if_true]
      exact lookup_mapIf_ne (st.stop_time_instances_by_date d)
        (fun inner => inner.map fun q =>
          (q.1, { q.2 with skipped := false, actual_arrival_override := none,
                           actual_departure_override := none }))
        (strLower tid) k hk
  · simp only [Store.reset_realtime_data, eq_self_iff_true, if_true]
    rw [lookup_mapIf_self (st.trip_instances_by_date d)
      (fun ti => { ti with cancelled := false }) (strLower tid), hti]
    rfl
  · simp only [Store.derefSti, Store.reset_realtime_data, eq_self_iff_true,
      if_true] at hsti ⊢
    rw [lookup_mapIf_self (st.stop_time_instances_by_date d)
      (fun inner => inner.map fun q =>
        (q.1, { q.2 with skipped := false, actual_arrival_override := none,
                         actual_departure_override := none })) (strLower tid)]
    cases hm : (st.stop_time_instances_by_date d).lookup (strLower tid) with
    | none => rw [hm] at hsti; cases hsti
    | some inner =>
      rw [hm] at hsti
      simp only [Option.some_bind] at hsti
      simp only [Option.map_some', Option.some_bind]
      exact (lookup_map_value inner
        (fun sti => { sti with skipped := false, actual_arrival_override := none,
                               actual_departure_override := none }) seq).trans
        (by rw [hsti])

/-- C4 witness: a store holding one cancelled trip instance of trip "t1" on
date 5 whose single stop-time instance is skipped and carries actual-time
overrides; processing a deleted entity for ("t1", 5) resets all three
realtime fields while both instances stay present, and the static view is
untouched. -/
theorem process_deleted_entity_resets_realtime_witness :
    (let ti : TripInstance :=
      { id := "t1", route_id := "r1", service_id := "s1", headsign := "X",
        direction := Direction.upward, date := 5, cancelled := true }
     let sti : StopTimeInstance :=
      { trip_id := "t1", sequence := 1, stop_id := "p1", arrival_time := 60,
        departure_time := 120, terminates := false, date := 5, skipped := true,
        actual_arrival_override := some 99, actual_departure_override := some 98 }
     let st : Store :=
      { emptyStore with
        trip_instances_by_date := fun d => if d = 5 then [("t1", ti)] else [],
        stop_time_instances_by_date := fun d =>
          if d = 5 then [("t1", [(1, sti)])] else [] }
     let e : FeedEntity :=
      { is_deleted := some true,
        trip_update := some
          { trip := { trip_id := some "t1", start_date := some 5,
                      schedule_relationship := none },
            stop_time_update := [] } }
     (processEntity st e).staticView = st.staticView ∧
     ((processEntity st e).trip_instances_by_date 5).lookup (strLower "t1") =
       some { ti with cancelled := false } ∧
     (processEntity st e).derefSti (5, strLower "t1", 1) =
       some { sti with skipped := false, actual_arrival_override := none,
                       actual_departure_override := none }) := by
  intro ti sti st e
  have h := process_deleted_entity_resets_realtime st e
    { trip := { trip_id := some "t1", start_date := some 5,
                schedule_relationship := none },
      stop_time_update := [] } "t1" 5 rfl rfl rfl rfl
  exact ⟨h.1, h.2.2.2.2.1 ti (by decide), h.2.2.2.2.2 1 sti (by decide)⟩

-- Claim C8 -------------------------------------------------------------------

/-- C8 counterexample.  A rail route "r1", a trip "t1" on it, a station "p1"
with child platform "c1": after `add_stop_time` registers a stop time of
"t1" at "c1", `stop_has_route_with_type` is true for the stop's own id "c1"
but FALSE for its ancestor "p1" — `add_stop_time` (store.py line 187) adds
the route's type only to `_route_types_by_stop[stop_time._stop_id]`, never to
any ancestor, refuting the claim that every ancestor's route-type set is
updated. -/
theorem add_stop_time_ancestor_counterexample :
    (let route : Route :=
      { id := "r1", short_name := "R", long_name := "Rail", type := RouteType.rail }
     let trip : Trip :=
      { id := "t1", route_id := "r1", service_id := "s1", headsign := "X",
        direction := Direction.upward }
     let stopP : Stop :=
      { id := "p1", name := "Station", url := "", type := LocationType.station,
        parent_station_id := none, platform_code := none }
     let stopC : Stop :=
      { id := "c1", name := "Platform 1", url := "", type := LocationType.stop,
        parent_station_id := some "p1", platform_code := some "1" }
     let st : Store :=
      { emptyStore with
        routes := [("r1", route)], trips := [("t1", trip)],
        stops := [("p1", stopP), ("c1", stopC)],
        children_stops := fun s => if s = "p1" then [stopC] else [] }
     let st' := afterCall st (st.add_stop_time "t1" 1 "c1" 60 120 "0")
     st.add_stop_time "t1" 1 "c1" 60 120 "0" = .ok st' ∧
     st'.stop_has_route_with_type "c1" RouteType.rail = true ∧
     st'.stop_has_route_with_type "p1" RouteType.rail = false) := by
  refine ⟨rfl, by decide, by decide⟩

/-- C8 amended.  `add_stop_time` adds the owning route's type to the
route-type set of the referenced stop's own id ONLY: afterwards
`stop_has_route_with_type(stop_id, route.type)` is true for the stop itself,
while the route-type set of every other stop id — in particular of every
ancestor station — is exactly as before (the parent/child rollup is instead
performed at query time by `get_stops_by_route_type`, which walks
descendants). -/
theorem add_stop_time_route_type_spec (st : Store) (trip_id : String)
    (sequence : Int) (stop_id : String) (arr dep : Int) (pickup : String)
    (trip : Trip) (route : Route) (st' : Store)
    (htrip : st.trips.lookup (strLower (strLower trip_id)) = some trip)
    (hroute : st.routes.lookup trip.route_id = some route)
    (h : st.add_stop_time trip_id sequence stop_id arr dep pickup = .ok st') :
    st'.stop_has_route_with_type stop_id route.type = true ∧
    st'.route_types_by_stop (strLower stop_id) =
      setAdd (st.route_types_by_stop (strLower stop_id)) route.type ∧
    (∀ s, s ≠ strLower stop_id →
      st'.route_types_by_stop s = st.route_types_by_stop s) := by
  unfold Store.add_stop_time at h
  simp only [Store.get_trip, htrip] at h
  rw [hroute] at h
  cases h
  refine ⟨?_, by simp [fupdate], fun s hs => by simp [fupdate, hs]⟩
  simp only [Store.stop_has_route_with_type, fupdate, eq_self_iff_true, if_true]
  exact setAdd_contains_self _ _

/-- C8 amended witness: the counterexample store again; after the successful
`add_stop_time` the stop's own set answers true and the ancestor "p1" keeps
its previous (empty) set. -/
theorem add_stop_time_route_type_spec_witness :
    (let route : Route :=
      { id := "r1", short_name := "R", long_name := "Rail", type := RouteType.rail }
     let trip : Trip :=
      { id := "t1", route_id := "r1", service_id := "s1", headsign := "X",
        direction := Direction.upward }
     let st : Store :=
      { emptyStore with
        routes := [("r1", route)], trips := [("t1", trip)] }
     let st' := afterCall st (st.add_stop_time "t1" 1 "c1" 60 120 "0")
     st'.stop_has_route_with_type "c1" RouteType.rail = true ∧
     st'.route_types_by_stop "p1" = st.route_types_by_stop "p1") := by
  intro route trip st st'
  have h := add_stop_time_route_type_spec st "t1" 1 "c1" 60 120 "0" trip route
    st' (by decide) (by decide) rfl
  exact ⟨h.1, h.2.2 "p1" (by decide)⟩

-- region: the parent/child station walk

theorem flatMap_congr_left {α β : Type} {l : List α} {f g : α → List β}
    (h : ∀ a ∈ l, f a = g a) : l.flatMap f = l.flatMap g := by
  induction l with
  | nil => rfl
  | cons a rest ih =>
    simp only [List.flatMap_cons, h a (List.mem_cons_self a rest)]
    rw [ih fun a' ha' => h a' (List.mem_cons_of_mem a ha')]

theorem nodup_flatMap_of {α β : Type} {l : List α} {f : α → List β}
    (hl : l.Nodup) (hf : ∀ x ∈ l, (f x).Nodup)
    (hdisj : ∀ x ∈ l, ∀ y ∈ l, x ≠ y → ∀ a ∈ f x, a ∉ f y) :
    (l.flatMap f).Nodup := by
  induction l with
  | nil => simp
  | cons x rest ih =>
    rw [List.flatMap_cons]
    refine List.Nodup.append (hf x (List.mem_cons_self x rest)) ?_ ?_
    · exact ih (List.Nodup.of_cons hl)
        (fun a ha => hf a (List.mem_cons_of_mem x ha))
        (fun a ha b hb => hdisj a (List.mem_cons_of_mem x ha) b
          (List.mem_cons_of_mem x hb))
    · intro a ha hb
      obtain ⟨y, hy, hay⟩ := List.mem_flatMap.mp hb
      have hxy : x ≠ y := fun hxy => (List.nodup_cons.mp hl).1 (hxy ▸ hy)
      exact hdisj x (List.mem_cons_self x rest) y (List.mem_cons_of_mem x hy)
        hxy a ha hay

theorem rank_of_childStep {st : Store} {rank : String → Nat}
    (hrank : ∀ a b, childStep st a b → rank b < rank a) {a b : String}
    (h : Relation.ReflTransGen (childStep st) a b) : rank b ≤ rank a := by
  induction h with
  | refl => exact Nat.le_refl _
  | tail hby hstep ih => exact Nat.le_trans (Nat.le_of_lt (hrank _ _ hstep)) ih

theorem rank_of_transGen {st : Store} {rank : String → Nat}
    (hrank : ∀ a b, childStep st a b → rank b < rank a) {a b : String}
    (h : Relation.TransGen (childStep st) a b) : rank b < rank a := by
  induction h with
  | single hstep => exact hrank _ _ hstep
  | tail hby hstep ih => exact Nat.lt_trans (hrank _ _ hstep) ih

theorem walk_stable {st : Store} {rank : String → Nat}
    (hrank : ∀ a b, childStep st a b → rank b < rank a) :
    ∀ (n m : Nat) (s : String), rank s < n → rank s < m →
      st.walk_child_stop_ids n s = st.walk_child_stop_ids m s := by
  intro n
  induction n with
  | zero => intro m s hn; exact absurd hn (Nat.not_lt_zero _)
  | succ n ih =>
    intro m s hn hm
    cases m with
    | zero => exact absurd hm (Nat.not_lt_zero _)
    | succ m =>
      simp only [Store.walk_child_stop_ids]
      congr 1
      refine flatMap_congr_left fun c hc => ?_
      have hstep : childStep st s c.id :=
        List.mem_map.mpr ⟨c, hc, rfl⟩
      have hcs : rank c.id < rank s := hrank _ _ hstep
      exact ih m c.id (Nat.lt_of_lt_of_le hcs (Nat.lt_succ_iff.mp hn))
        (Nat.lt_of_lt_of_le hcs (Nat.lt_succ_iff.mp hm))

theorem walk_mem {st : Store} {rank : String → Nat}
    (hrank : ∀ a b, childStep st a b → rank b < rank a) :
    ∀ (n : Nat) (s x : String), rank s < n →
      (x ∈ st.walk_child_stop_ids n s ↔
        Relation.ReflTransGen (childStep st) s x) := by
  intro n
  induction n with
  | zero => intro s x hn; exact absurd hn (Nat.not_lt_zero _)
  | succ n ih =>
    intro s x hn
    simp only [Store.walk_child_stop_ids, List.mem_cons, List.mem_flatMap]
    constructor
    · rintro (rfl | ⟨c, hc, hx⟩)
      · exact Relation.ReflTransGen.refl
      · have hstep : childStep st s c.id := List.mem_map.mpr ⟨c, hc, rfl⟩
        have := (ih c.id x
          (Nat.lt_of_lt_of_le (hrank _ _ hstep) (Nat.lt_succ_iff.mp hn))).mp hx
        exact Relation.ReflTransGen.head hstep this
    · intro h
      rcases Relation.ReflTransGen.cases_head h with rfl | ⟨b, hstep, hbx⟩
      · exact Or.inl rfl
      · obtain ⟨c, hc, rfl⟩ := List.mem_map.mp hstep
        refine Or.inr ⟨c, hc, ?_⟩
        exact (ih c.id x
          (Nat.lt_of_lt_of_le (hrank _ _ (List.mem_map.mpr ⟨c, hc, rfl⟩))
            (Nat.lt_succ_iff.mp hn))).mpr hbx

theorem reaches_comparable {st : Store}
    (huniq : ∀ b a a', childStep st a b → childStep st a' b → a = a')
    {a b x : String} (h2 : Relation.ReflTransGen (childStep st) b x) :
    Relation.ReflTransGen (childStep st) a x →
      Relation.ReflTransGen (childStep st) a b ∨
        Relation.ReflTransGen (childStep st) b a := by
  induction h2 with
  | refl => exact fun h1 => Or.inl h1
  | tail hby hstep ih =>
    intro h1
    rcases Relation.ReflTransGen.cases_tail h1 with heq | ⟨z, haz, hzx⟩
    · subst heq
      exact Or.inr (Relation.ReflTransGen.tail hby hstep)
    · cases huniq _ _ _ hzx hstep
      exact ih haz

theorem subtree_disjoint {st : Store} {rank : String → Nat}
    (hrank : ∀ a b, childStep st a b → rank b < rank a)
    (huniq : ∀ b a a', childStep st a b → childStep st a' b → a = a')
    {s c c' x : String} (hne : c ≠ c')
    (hc : childStep st s c) (hc' : childStep st s c')
    (hx : Relation.ReflTransGen (childStep st) c x)
    (hx' : Relation.ReflTransGen (childStep st) c' x) : False := by
  have hcomp := reaches_comparable huniq hx' hx
  have key : ∀ u v : String, u ≠ v → childStep st s u → childStep st s v →
      Relation.ReflTransGen (childStep st) u v → False := by
    intro u v huv hu hv huvr
    rcases Relation.ReflTransGen.cases_tail huvr with heq | ⟨z, huz, hzv⟩
    · exact huv heq.symm
    · cases huniq _ _ _ hzv hv
      have h1 : rank s ≤ rank u := rank_of_childStep hrank huz
      exact absurd (hrank _ _ hu) (Nat.not_lt.mpr h1)
  rcases hcomp with hcc' | hc'c
  · exact key c c' hne hc hc' hcc'
  · exact key c' c (Ne.symm hne) hc' hc hc'c

theorem walk_nodup {st : Store} {rank : String → Nat}
    (hrank : ∀ a b, childStep st a b → rank b < rank a)
    (hnodup : ∀ a, ((st.children_stops a).map Stop.id).Nodup)
    (huniq : ∀ b a a', childStep st a b → childStep st a' b → a = a') :
    ∀ (n : Nat) (s : String), rank s < n →
      (st.walk_child_stop_ids n s).Nodup := by
  intro n
  induction n with
  | zero => intro s hn; exact absurd hn (Nat.not_lt_zero _)
  | succ n ih =>
    intro s hn
    simp only [Store.walk_child_stop_ids]
    have hrw : (st.children_stops s).flatMap
        (fun stop => st.walk_child_stop_ids n stop.id) =
        ((st.children_stops s).map Stop.id).flatMap
          (st.walk_child_stop_ids n) := by
      rw [List.flatMap_map]
    refine List.nodup_cons.mpr ⟨?_, ?_⟩
    · rw [hrw]
      intro hmem
      obtain ⟨cid, hcid, hs⟩ := List.mem_flatMap.mp hmem
      have hstep : childStep st s cid := hcid
      have hlt : rank cid < n :=
        Nat.lt_of_lt_of_le (hrank _ _ hstep) (Nat.lt_succ_iff.mp hn)
      have hreach := (walk_mem hrank n cid s hlt).mp hs
      have h1 : rank s ≤ rank cid := rank_of_childStep hrank hreach
      exact absurd (hrank _ _ hstep) (Nat.not_lt.mpr h1)
    · rw [hrw]
      refine nodup_flatMap_of (hnodup s) ?_ ?_
      · intro cid hcid
        exact ih cid
          (Nat.lt_of_lt_of_le (hrank _ _ hcid) (Nat.lt_succ_iff.mp hn))
      · intro cid hcid cid' hcid' hne x hx hx'
        have hlt : rank cid < n :=
          Nat.lt_of_lt_of_le (hrank _ _ hcid) (Nat.lt_succ_iff.mp hn)
        have hlt' : rank cid' < n :=
          Nat.lt_of_lt_of_le (hrank _ _ hcid') (Nat.lt_succ_iff.mp hn)
        exact subtree_disjoint hrank huniq hne hcid hcid'
          ((walk_mem hrank n cid x hlt).mp hx)
          ((walk_mem hrank n cid' x hlt').mp hx')

-- endregion

-- Claim C10 ------------------------------------------------------------------

/-- C10.  Under the precondition that the parent-station references form an
acyclic hierarchy — rendered as a height certificate `rank` strictly
decreasing along every parent-to-child edge (over the finitely many stops of
a store, a forest-shaped `_children_stops` admits such a certificate, and its
existence in turn forbids any stop from being its own transitive ancestor:
first conjunct), plus the per-parent child lists being duplicate-free with a
unique parent per child — `_walk_child_stop_ids` terminates (its fuelled
unfolding is independent of the fuel once it exceeds the stop's height) and
yields exactly the stops of the subtree rooted at the argument, each exactly
once; consequently `get_stop_time_instances_between` and
`get_stops_by_route_type` are fuel-independent — terminate — under the same
precondition. -/
theorem walk_child_stop_ids_spec (st : Store) (rank : String → Nat)
    (hrank : ∀ a b, childStep st a b → rank b < rank a)
    (hnodup : ∀ a, ((st.children_stops a).map Stop.id).Nodup)
    (huniq : ∀ b a a', childStep st a b → childStep st a' b → a = a') :
    (∀ x, ¬ Relation.TransGen (childStep st) x x) ∧
    (∀ n m s, rank s < n → rank s < m →
      st.walk_child_stop_ids n s = st.walk_child_stop_ids m s) ∧
    (∀ n s, rank s < n → (st.walk_child_stop_ids n s).Nodup) ∧
    (∀ n s x, rank s < n →
      (x ∈ st.walk_child_stop_ids n s ↔
        Relation.ReflTransGen (childStep st) s x)) ∧
    (∀ n m stop_id start_time end_time,
      rank (strLower stop_id) < n → rank (strLower stop_id) < m →
      st.get_stop_time_instances_between n stop_id start_time end_time =
        st.get_stop_time_instances_between m stop_id start_time end_time) ∧
    (∀ n m rt, (∀ p ∈ st.stops, p.2.id ∈ st.stops.map (fun q => q.2.id)) →
      (∀ p ∈ st.stops, rank p.2.id < n ∧ rank p.2.id < m) →
      st.get_stops_by_route_type n rt = st.get_stops_by_route_type m rt) := by
  refine ⟨fun x h => absurd (rank_of_transGen hrank h) (Nat.lt_irrefl _),
    walk_stable hrank, walk_nodup hrank hnodup huniq, walk_mem hrank,
    fun n m stop_id start_time end_time hn hm => ?_, fun n m rt _ hp => ?_⟩
  · unfold Store.get_stop_time_instances_between
    rw [walk_stable hrank n m (strLower stop_id) hn hm]
  · unfold Store.get_stops_by_route_type
    refine flatMap_congr_left fun p hp' => ?_
    rw [walk_stable hrank n m p.2.id (hp p hp').1 (hp p hp').2]

/-- C10 witness: the two-level tree store "p1" → "c1" with its height
certificate; fuel 2 and 3 agree for the walk and for both queries, the walk
is duplicate-free, and membership coincides with reachability. -/
theorem walk_child_stop_ids_spec_witness :
    treeStore.walk_child_stop_ids 2 "p1" = treeStore.walk_child_stop_ids 3 "p1" ∧
    (treeStore.walk_child_stop_ids 2 "p1").Nodup ∧
    ("c1" ∈ treeStore.walk_child_stop_ids 2 "p1" ↔
      Relation.ReflTransGen (childStep treeStore) "p1" "c1") ∧
    treeStore.get_stop_time_instances_between 2 "p1" 432000 433000 =
      treeStore.get_stop_time_instances_between 3 "p1" 432000 433000 ∧
    treeStore.get_stops_by_route_type 2 RouteType.rail =
      treeStore.get_stops_by_route_type 3 RouteType.rail := by
  have hrank : ∀ a b, childStep treeStore a b → treeRank b < treeRank a := by
    intro a b h
    by_cases ha : a = "p1"
    · subst ha
      simp [childStep, treeStore, stopC1] at h
      subst h
      decide
    · simp [childStep, treeStore, ha] at h
  have hnodup : ∀ a, ((treeStore.children_stops a).map Stop.id).Nodup := by
    intro a
    by_cases ha : a = "p1" <;> simp [treeStore, ha]
  have huniq : ∀ b a a', childStep treeStore a b → childStep treeStore a' b →
      a = a' := by
    intro b a a' h h'
    by_cases ha : a = "p1"
    · by_cases ha' : a' = "p1"
      · rw [ha, ha']
      · simp [childStep, treeStore, ha'] at h'
    · simp [childStep, treeStore, ha] at h
  have h := walk_child_stop_ids_spec treeStore treeRank hrank hnodup huniq
  refine ⟨h.2.1 2 3 "p1" (by decide) (by decide),
    h.2.2.1 2 "p1" (by decide),
    h.2.2.2.1 2 "p1" "c1" (by decide),
    h.2.2.2.2.1 2 3 "p1" 432000 433000 (by decide) (by decide),
    h.2.2.2.2.2 2 3 RouteType.rail (by decide) (by decide)⟩

-- Claim C2 -------------------------------------------------------------------

/-- C2.  For a store whose station hierarchy is well-formed (height
certificate, duplicate-free child lists, unique parents, enough fuel,
normalised — already lower-case — walked stop ids) and whose per-stop
registrations are well-formed (each registered list duplicate-free, no
instance registered under two walked stops), `get_stop_time_instances_between`
returns exactly the instances registered against the queried stop or any of
its transitive descendants whose actual departure time `t` satisfies
`start ≤ t < end` — membership characterised by reachability in the
parent/child tree — with no duplicates, sorted ascending by actual departure
time. -/
theorem get_stop_time_instances_between_spec (st : Store)
    (rank : String → Nat) (stop_id : String) (fuel : Nat)
    (start_time end_time : Time)
    (hrank : ∀ a b, childStep st a b → rank b < rank a)
    (hnodup : ∀ a, ((st.children_stops a).map Stop.id).Nodup)
    (huniq : ∀ b a a', childStep st a b → childStep st a' b → a = a')
    (hfuel : rank (strLower stop_id) < fuel)
    (hlower : ∀ sid ∈ st.walk_child_stop_ids fuel (strLower stop_id),
      strLower sid = sid)
    (hreg_nodup : ∀ sid ∈ st.walk_child_stop_ids fuel (strLower stop_id),
      (st.registered_at sid).Nodup)
    (hreg_disj : ∀ sid ∈ st.walk_child_stop_ids fuel (strLower stop_id),
      ∀ sid' ∈ st.walk_child_stop_ids fuel (strLower stop_id), sid ≠ sid' →
      ∀ x ∈ st.registered_at sid, x ∉ st.registered_at sid') :
    (st.get_stop_time_instances_between fuel stop_id start_time
        end_time).Pairwise
      (fun a b => a.actual_departure_time ≤ b.actual_departure_time) ∧
    (st.get_stop_time_instances_between fuel stop_id start_time
        end_time).Nodup ∧
    (∀ x, x ∈ st.get_stop_time_instances_between fuel stop_id start_time
        end_time ↔
      ∃ sid, Relation.ReflTransGen (childStep st) (strLower stop_id) sid ∧
        x ∈ st.registered_at sid ∧ start_time ≤ x.actual_departure_time ∧
        x.actual_departure_time < end_time) := by
  have htrans : ∀ a b c : StopTimeInstance,
      decide (a.actual_departure_time ≤ b.actual_departure_time) = true →
      decide (b.actual_departure_time ≤ c.actual_departure_time) = true →
      decide (a.actual_departure_time ≤ c.actual_departure_time) = true := by
    intro a b c hab hbc
    exact decide_eq_true
      (le_trans (of_decide_eq_true hab) (of_decide_eq_true hbc))
  have htotal : ∀ a b : StopTimeInstance,
      (decide (a.actual_departure_time ≤ b.actual_departure_time) ||
        decide (b.actual_departure_time ≤ a.actual_departure_time)) = true := by
    intro a b
    rcases le_total a.actual_departure_time b.actual_departure_time with h | h
    · simp [h]
    · simp [h]
  refine ⟨?_, ?_, ?_⟩
  · refine List.Pairwise.imp (fun h => of_decide_eq_true h) ?_
    exact List.sorted_mergeSort htrans htotal _
  · unfold Store.get_stop_time_instances_between
    rw [List.Perm.nodup_iff (List.mergeSort_perm _ _)]
    refine nodup_flatMap_of (walk_nodup hrank hnodup huniq fuel _ hfuel) ?_ ?_
    · intro sid hsid
      rw [hlower sid hsid]
      exact List.Nodup.filter _ (hreg_nodup sid hsid)
    · intro sid hsid sid' hsid' hne x hx hx'
      rw [hlower sid hsid] at hx
      rw [hlower sid' hsid'] at hx'
      exact hreg_disj sid hsid sid' hsid' hne x (List.mem_filter.mp hx).1
        (List.mem_filter.mp hx').1
  · intro x
    unfold Store.get_stop_time_instances_between
    rw [List.mem_mergeSort, List.mem_flatMap]
    constructor
    · rintro ⟨sid, hsid, hx⟩
      rw [hlower sid hsid] at hx
      obtain ⟨hxr, hxp⟩ := List.mem_filter.mp hx
      rw [Bool.and_eq_true, decide_eq_true_iff, decide_eq_true_iff] at hxp
      exact ⟨sid, (walk_mem hrank fuel _ sid hfuel).mp hsid, hxr, hxp.1, hxp.2⟩
    · rintro ⟨sid, hreach, hxr, h1, h2⟩
      have hsid : sid ∈ st.walk_child_stop_ids fuel (strLower stop_id) :=
        (walk_mem hrank fuel _ sid hfuel).mpr hreach
      refine ⟨sid, hsid, ?_⟩
      rw [hlower sid hsid]
      exact List.mem_filter.mpr ⟨hxr, by
        rw [Bool.and_eq_true, decide_eq_true_iff, decide_eq_true_iff]
        exact ⟨h1, h2⟩⟩

/-- C2 witness: querying the parent station "p1" of `treeStore` between
432000 and 433000 (actual departure of the instance under child "c1" is
5·86400 + 120 = 432120) returns a sorted, duplicate-free list containing that
instance — the instance is found through the parent/child rollup. -/
theorem get_stop_time_instances_between_spec_witness :
    (treeStore.get_stop_time_instances_between 2 "p1" 432000 433000).Pairwise
      (fun a b => a.actual_departure_time ≤ b.actual_departure_time) ∧
    (treeStore.get_stop_time_instances_between 2 "p1" 432000 433000).Nodup ∧
    stiC1 ∈ treeStore.get_stop_time_instances_between 2 "p1" 432000 433000 := by
  have hrank : ∀ a b, childStep treeStore a b → treeRank b < treeRank a := by
    intro a b h
    by_cases ha : a = "p1"
    · subst ha
      simp [childStep, treeStore, stopC1] at h
      subst h
      decide
    · simp [childStep, treeStore, ha] at h
  have hnodup : ∀ a, ((treeStore.children_stops a).map Stop.id).Nodup := by
    intro a
    by_cases ha : a = "p1" <;> simp [treeStore, ha]
  have huniq : ∀ b a a', childStep treeStore a b → childStep treeStore a' b →
      a = a' := by
    intro b a a' h h'
    by_cases ha : a = "p1"
    · by_cases ha' : a' = "p1"
      · rw [ha, ha']
      · simp [childStep, treeStore, ha'] at h'
    · simp [childStep, treeStore, ha] at h
  have h := get_stop_time_instances_between_spec treeStore treeRank "p1" 2
    432000 433000 hrank hnodup huniq (by decide) (by decide) (by decide)
    (by decide)
  refine ⟨h.1, h.2.1, (h.2.2 stiC1).mpr ⟨"c1", ?_, by decide, by decide, by decide⟩⟩
  exact Relation.ReflTransGen.single
    (show "c1" ∈ (treeStore.children_stops (strLower "p1")).map Stop.id by decide)

-- region: lemmas on the instance materialiser

theorem addSTI_frame {date : Date} {tid : String} :
    ∀ (l : List StopTime) (st st₁ : Store),
      addStopTimeInstancesForTrip date tid st l = .ok st₁ →
      st₁.staticView = st.staticView ∧
      st₁.trip_instances_by_date = st.trip_instances_by_date ∧
      st₁.stop_time_instances_by_stop = st.stop_time_instances_by_stop ∧
      (∀ d', d' ≠ date → st₁.stop_time_instances_by_date d' =
        st.stop_time_instances_by_date d') := by
  intro l
  induction l with
  | nil =>
    intro st st₁ h
    unfold addStopTimeInstancesForTrip at h
    rw [List.foldlM_nil] at h
    cases h
    exact ⟨rfl, rfl, rfl, fun _ _ => rfl⟩
  | cons stop_time rest ih =>
    intro st st₁ h
    unfold addStopTimeInstancesForTrip at h
    rw [List.foldlM_cons] at h
    obtain ⟨s', hstep, hrest⟩ := except_bind_ok h
    obtain ⟨sti, hmk, hins⟩ := except_bind_ok hstep
    cases hins
    have ihr := ih _ _ hrest
    refine ⟨ihr.1.trans rfl, ihr.2.1.trans rfl, ihr.2.2.1.trans rfl,
      fun d' hd' => (ihr.2.2.2 d' hd').trans ?_⟩
    simp [Store.insert_sti, hd']

theorem createInstancesForTrip_cases {date : Date} {st st₁ : Store}
    {p : String × Trip} (h : createInstancesForTrip date st p = .ok st₁) :
    (∃ srv, st.services.lookup p.2.service_id = some srv ∧
      srv.runs_on date = false ∧ st₁ = st) ∨
    (st₁.staticView = st.staticView ∧
     st₁.stop_time_instances_by_stop = st.stop_time_instances_by_stop ∧
     (∀ d', d' ≠ date →
       st₁.trip_instances_by_date d' = st.trip_instances_by_date d' ∧
       st₁.stop_time_instances_by_date d' = st.stop_time_instances_by_date d') ∧
     ∃ ti, st₁.trip_instances_by_date date =
       dinsert (st.trip_instances_by_date date) p.1 ti) := by
  unfold createInstancesForTrip at h
  cases hl : st.services.lookup p.2.service_id with
  | none => rw [hl] at h; cases h
  | some srv =>
    simp only [hl] at h
    cases hr : srv.runs_on date with
    | false =>
      rw [hr] at h
      simp only [Bool.false_eq_true, if_false] at h
      cases h
      exact Or.inl ⟨srv, rfl, hr, rfl⟩
    | true =>
      rw [hr] at h
      simp only [if_true] at h
      obtain ⟨ti, hmk, haddsti⟩ := except_bind_ok h
      have fr := addSTI_frame _ _ _ haddsti
      refine Or.inr ⟨fr.1.trans rfl, fr.2.2.1.trans rfl, fun d' hd' => ?_, ti, ?_⟩
      · constructor
        · rw [congrFun fr.2.1 d']
          simp [Store.insert_ti, hd']
        · exact (fr.2.2.2 d' hd').trans rfl
      · rw [congrFun fr.2.1 date]
        simp [Store.insert_ti]

theorem fold_trips_nonempty {date : Date} :
    ∀ (l : List (String × Trip)) (st st₁ : Store),
      l.foldlM (createInstancesForTrip date) st = .ok st₁ →
      st.trip_instances_by_date date ≠ [] →
      st₁.trip_instances_by_date date ≠ [] := by
  intro l
  induction l with
  | nil =>
    intro st st₁ h hne
    rw [List.foldlM_nil] at h
    cases h
    exact hne
  | cons p rest ih =>
    intro st st₁ h hne
    rw [List.foldlM_cons] at h
    obtain ⟨s', hstep, hrest⟩ := except_bind_ok h
    rcases createInstancesForTrip_cases hstep with ⟨srv, _, _, rfl⟩ |
      ⟨_, _, _, ti, hins⟩
    · exact ih _ _ hrest hne
    · exact ih _ _ hrest (by rw [hins]; exact dinsert_ne_nil _ _ _)

theorem fold_trips_empty {date : Date} :
    ∀ (l : List (String × Trip)) (st st₁ : Store),
      l.foldlM (createInstancesForTrip date) st = .ok st₁ →
      st₁.trip_instances_by_date date = [] →
      st₁ = st ∧ ∀ p ∈ l, ∃ srv,
        st.services.lookup p.2.service_id = some srv ∧
        srv.runs_on date = false := by
  intro l
  induction l with
  | nil =>
    intro st st₁ h _
    rw [List.foldlM_nil] at h
    cases h
    exact ⟨rfl, by simp⟩
  | cons p rest ih =>
    intro st st₁ h hempty
    rw [List.foldlM_cons] at h
    obtain ⟨s', hstep, hrest⟩ := except_bind_ok h
    rcases createInstancesForTrip_cases hstep with ⟨srv, hl, hr, rfl⟩ |
      ⟨_, _, _, ti, hins⟩
    · obtain ⟨heq, hall⟩ := ih _ _ hrest hempty
      refine ⟨heq, fun q hq => ?_⟩
      rcases List.mem_cons.mp hq with rfl | hq'
      · exact ⟨srv, hl, hr⟩
      · exact hall q hq'
    · exact absurd hempty (fold_trips_nonempty rest s' st₁ hrest
        (by rw [hins]; exact dinsert_ne_nil _ _ _))

theorem fold_trips_skip_all {date : Date} :
    ∀ (l : List (String × Trip)) (st : Store),
      (∀ p ∈ l, ∃ srv, st.services.lookup p.2.service_id = some srv ∧
        srv.runs_on date = false) →
      l.foldlM (createInstancesForTrip date) st = .ok st := by
  intro l
  induction l with
  | nil => intro st _; rw [List.foldlM_nil]; rfl
  | cons p rest ih =>
    intro st hall
    obtain ⟨srv, hl, hr⟩ := hall p (List.mem_cons_self p rest)
    have hstep : createInstancesForTrip date st p = .ok st := by
      unfold createInstancesForTrip
      simp only [hl]
      rw [hr]
      simp
    rw [List.foldlM_cons, hstep]
    show rest.foldlM (createInstancesForTrip date) st = .ok st
    exact ih st fun q hq => hall q (List.mem_cons_of_mem p hq)

theorem fold_trips_frame {date : Date} :
    ∀ (l : List (String × Trip)) (st st₁ : Store),
      l.foldlM (createInstancesForTrip date) st = .ok st₁ →
      st₁.staticView = st.staticView ∧
      st₁.stop_time_instances_by_stop = st.stop_time_instances_by_stop ∧
      (∀ d', d' ≠ date →
        st₁.trip_instances_by_date d' = st.trip_instances_by_date d' ∧
        st₁.stop_time_instances_by_date d' =
          st.stop_time_instances_by_date d') := by
  intro l
  induction l with
  | nil =>
    intro st st₁ h
    rw [List.foldlM_nil] at h
    cases h
    exact ⟨rfl, rfl, fun _ _ => ⟨rfl, rfl⟩⟩
  | cons p rest ih =>
    intro st st₁ h
    rw [List.foldlM_cons] at h
    obtain ⟨s', hstep, hrest⟩ := except_bind_ok h
    have ihr := ih _ _ hrest
    rcases createInstancesForTrip_cases hstep with ⟨srv, _, _, rfl⟩ |
      ⟨f1, f2, f3, _⟩
    · exact ihr
    · exact ⟨ihr.1.trans f1, ihr.2.1.trans f2, fun d' hd' =>
        ⟨(ihr.2.2 d' hd').1.trans (f3 d' hd').1,
         (ihr.2.2 d' hd').2.trans (f3 d' hd').2⟩⟩

theorem foldl_appendStiRef_frame :
    ∀ (l : List (Int × StopTimeInstance)) (acc : Store),
      (l.foldl appendStiRef acc).staticView = acc.staticView ∧
      (l.foldl appendStiRef acc).trip_instances_by_date =
        acc.trip_instances_by_date ∧
      (l.foldl appendStiRef acc).stop_time_instances_by_date =
        acc.stop_time_instances_by_date := by
  intro l
  induction l with
  | nil => intro acc; exact ⟨rfl, rfl, rfl⟩
  | cons q rest ih =>
    intro acc
    rw [List.foldl_cons]
    exact ⟨(ih _).1.trans rfl, (ih _).2.1.trans rfl, (ih _).2.2.trans rfl⟩

theorem foldl_outer_frame :
    ∀ (l : List (String × List (Int × StopTimeInstance))) (acc : Store),
      (l.foldl (fun acc p => p.2.foldl appendStiRef acc) acc).staticView =
        acc.staticView ∧
      (l.foldl (fun acc p => p.2.foldl appendStiRef acc)
        acc).trip_instances_by_date = acc.trip_instances_by_date ∧
      (l.foldl (fun acc p => p.2.foldl appendStiRef acc)
        acc).stop_time_instances_by_date = acc.stop_time_instances_by_date := by
  intro l
  induction l with
  | nil => intro acc; exact ⟨rfl, rfl, rfl⟩
  | cons p rest ih =>
    intro acc
    rw [List.foldl_cons]
    have hinner := foldl_appendStiRef_frame p.2 acc
    have houter := ih (p.2.foldl appendStiRef acc)
    exact ⟨houter.1.trans hinner.1, houter.2.1.trans hinner.2.1,
      houter.2.2.trans hinner.2.2⟩

theorem rebuild_frame (st : Store) (date : Date) :
    (rebuildStopIndexForDate st date).staticView = st.staticView ∧
    (rebuildStopIndexForDate st date).trip_instances_by_date =
      st.trip_instances_by_date ∧
    (rebuildStopIndexForDate st date).stop_time_instances_by_date =
      st.stop_time_instances_by_date :=
  foldl_outer_frame (st.stop_time_instances_by_date date) st

theorem rebuild_empty {st : Store} {date : Date}
    (h : st.stop_time_instances_by_date date = []) :
    rebuildStopIndexForDate st date = st := by
  unfold rebuildStopIndexForDate
  rw [h]
  rfl

theorem createForDate_frame {st st₁ : Store} {d : Date}
    (h : createForDate st d = .ok st₁) :
    st₁.staticView = st.staticView ∧
    (∀ d', d' ≠ d →
      st₁.trip_instances_by_date d' = st.trip_instances_by_date d' ∧
      st₁.stop_time_instances_by_date d' =
        st.stop_time_instances_by_date d') := by
  unfold createForDate at h
  split at h
  · obtain ⟨sf, hf, hr⟩ := except_bind_ok h
    cases hr
    have hfold := fold_trips_frame _ _ _ hf
    have hreb := rebuild_frame sf d
    exact ⟨hreb.1.trans hfold.1, fun d' hd' =>
      ⟨(congrFun hreb.2.1 d').trans (hfold.2.2 d' hd').1,
       (congrFun hreb.2.2 d').trans (hfold.2.2 d' hd').2⟩⟩
  · cases h
    exact ⟨rfl, fun _ _ => ⟨rfl, rfl⟩⟩

theorem createForDate_again {st st₁ : Store} {d : Date}
    (h : createForDate st d = .ok st₁)
    (hcoh : st.trip_instances_by_date d = [] →
      st.stop_time_instances_by_date d = [])
    (u : Store) (hserv : u.services = st.services)
    (htrips : u.trips = st.trips)
    (hutibd : u.trip_instances_by_date d = st₁.trip_instances_by_date d)
    (hustibd : u.stop_time_instances_by_date d =
      st₁.stop_time_instances_by_date d) :
    createForDate u d = .ok u := by
  unfold createForDate
  cases hg : (u.trip_instances_by_date d).isEmpty with
  | false => simp [hg]
  | true =>
    have huempty : u.trip_instances_by_date d = [] :=
      List.isEmpty_iff.mp hg
    have hst₁empty : st₁.trip_instances_by_date d = [] := by
      rw [← hutibd]; exact huempty
    unfold createForDate at h
    split at h
    case isTrue hgst =>
      obtain ⟨sf, hf, hr⟩ := except_bind_ok h
      cases hr
      have hstempty : st.trip_instances_by_date d = [] :=
        List.isEmpty_iff.mp hgst
      have hsfempty : sf.trip_instances_by_date d = [] := by
        rw [← congrFun (rebuild_frame sf d).2.1 d]
        exact hst₁empty
      obtain ⟨heq, hall⟩ := fold_trips_empty _ _ _ hf hsfempty
      have hstsempty : st.stop_time_instances_by_date d = [] := hcoh hstempty
      simp only [hg, if_true]
      have hfold : u.trips.foldlM (createInstancesForTrip d) u = .ok u := by
        refine fold_trips_skip_all _ _ fun p hp => ?_
        obtain ⟨srv, hl, hr'⟩ := hall p (htrips ▸ hp)
        exact ⟨srv, hserv ▸ hl, hr'⟩
      have huse : u.stop_time_instances_by_date d = [] := by
        rw [hustibd, congrFun (rebuild_frame sf d).2.2 d, heq]
        exact hstsempty
      rw [hfold]
      show Except.ok (rebuildStopIndexForDate u d) = Except.ok u
      rw [rebuild_empty huse]
    case isFalse hgst =>
      cases h
      have : st.trip_instances_by_date d ≠ [] := by
        intro hx
        exact hgst (List.isEmpty_iff.mpr hx)
      exact absurd (hutibd.symm.trans huempty) this

-- endregion

-- Claim C5 -------------------------------------------------------------------

/-- C5.  Under the store coherence invariant that a date with no trip
instances has no stop-time instances either, calling `create_trip_instances`
twice in a row with the same `today` yields exactly the state of the first
call: the second call returns the first call's store unchanged — no
`TripInstance` or `StopTimeInstance` is duplicated and the stop-to-instance
index gains no entries (every date of the window either already has
instances, and is skipped by the guard, or still has none and the re-run
loops are no-ops). -/
theorem create_trip_instances_idempotent (st st' : Store) (today : Date)
    (hcoh : ∀ d, st.trip_instances_by_date d = [] →
      st.stop_time_instances_by_date d = [])
    (h : st.create_trip_instances today = .ok st') :
    st'.create_trip_instances today = .ok st' := by
  unfold Store.create_trip_instances at h ⊢
  rw [List.foldlM_cons] at h
  obtain ⟨s1, h1, h⟩ := except_bind_ok h
  rw [List.foldlM_cons] at h
  obtain ⟨s2, h2, h⟩ := except_bind_ok h
  rw [List.foldlM_cons] at h
  obtain ⟨s3, h3, h⟩ := except_bind_ok h
  rw [List.foldlM_nil] at h
  cases h
  have f1 := createForDate_frame h1
  have f2 := createForDate_frame h2
  have f3 := createForDate_frame h3
  have harith : ∀ x : Int, x - 1 ≠ x ∧ x - 1 ≠ x + 1 ∧ x ≠ x - 1 ∧
      x ≠ x + 1 ∧ x + 1 ≠ x - 1 ∧ x + 1 ≠ x := fun x => by
    refine ⟨?_, ?_, ?_, ?_, ?_, ?_⟩ <;> omega
  obtain ⟨hyt, hytm, hty, httm, htmy, htmt⟩ := harith today
  have hserv1 : s1.services = st.services := congrArg StaticView.services f1.1
  have hserv2 : s2.services = s1.services := congrArg StaticView.services f2.1
  have hserv3 : st'.services = s2.services := congrArg StaticView.services f3.1
  have htrips1 : s1.trips = st.trips := congrArg StaticView.trips f1.1
  have htrips2 : s2.trips = s1.trips := congrArg StaticView.trips f2.1
  have htrips3 : st'.trips = s2.trips := congrArg StaticView.trips f3.1
  have gy : createForDate st' (today - 1) = .ok st' := by
    refine createForDate_again h1 (hcoh _) st'
      (hserv3.trans (hserv2.trans hserv1)) (htrips3.trans (htrips2.trans htrips1))
      ?_ ?_
    · rw [(f3.2 _ hytm).1, (f2.2 _ hyt).1]
    · rw [(f3.2 _ hytm).2, (f2.2 _ hyt).2]
  have gt : createForDate st' today = .ok st' := by
    refine createForDate_again h2 ?_ st' (hserv3.trans hserv2)
      (htrips3.trans htrips2) ?_ ?_
    · intro hx
      rw [(f1.2 _ (Ne.symm hyt)).1] at hx
      rw [(f1.2 _ (Ne.symm hyt)).2]
      exact hcoh _ hx
    · exact (f3.2 _ httm).1
    · exact (f3.2 _ httm).2
  have gtm : createForDate st' (today + 1) = .ok st' := by
    refine createForDate_again h3 ?_ st' hserv3 htrips3 rfl rfl
    intro hx
    rw [(f2.2 _ (Ne.symm httm)).1, (f1.2 _ (Ne.symm hytm)).1] at hx
    rw [(f2.2 _ (Ne.symm httm)).2, (f1.2 _ (Ne.symm hytm)).2]
    exact hcoh _ hx
  rw [List.foldlM_cons, gy]
  show List.foldlM createForDate st' [today, today + 1] = Except.ok st'
  rw [List.foldlM_cons, gt]
  show List.foldlM createForDate st' [today + 1] = Except.ok st'
  rw [List.foldlM_cons, gtm]
  show List.foldlM createForDate st' [] = Except.ok st'
  rw [List.foldlM_nil]
  rfl

/-- C5 witness: from `loadedStore` (one daily trip with one stop time),
`create_trip_instances` at `today = 5` materialises instances for dates 4, 5
and 6; running it again on the resulting store returns that store unchanged. -/
theorem create_trip_instances_idempotent_witness :
    (afterCall loadedStore
      (loadedStore.create_trip_instances 5)).create_trip_instances 5 =
      .ok (afterCall loadedStore (loadedStore.create_trip_instances 5)) :=
  create_trip_instances_idempotent loadedStore _ 5 (fun _ _ => rfl) rfl

-- Claim C1 -------------------------------------------------------------------

/-- C1.  For every `Service` `s` and date `d`, `s.runs_on d` returns the
exception value `s.exceptions[d]` whenever `d` is a key of the exceptions map
(the exception overrides the weekday rule in both directions), and otherwise
returns `true` iff `s.start_date ≤ d ≤ s.end_date` and the weekday of `d` is
a member of `s.days`. -/
theorem runs_on_spec (s : Service) (d : Date) :
    (∀ b, s.exceptions.lookup d = some b → s.runs_on d = b) ∧
    (s.exceptions.lookup d = none →
      (s.runs_on d = true ↔
        (s.start_date ≤ d ∧ d ≤ s.end_date ∧ weekday d ∈ s.days))) := by
  constructor
  · intro b hb
    simp [Service.runs_on, hb]
  · intro hnone
    simp [Service.runs_on, hnone, List.contains_eq_any_beq, List.any_eq_true, and_assoc]

/-- C1 witness: the concrete service of spec §8 (days = {Mon, Wed}, range
2024-01-01 (ordinal 738886, a Monday) to 2024-01-31, exception
{2024-01-03 ↦ false}) evaluated on an exception date and on a plain Monday. -/
theorem runs_on_spec_witness :
    (let s : Service :=
      { id := "svc", days := [0, 2], start_date := 738886, end_date := 738916,
        exceptions := [(738888, false)] }
     s.exceptions.lookup 738888 = some false ∧ s.runs_on 738888 = false) ∧
    (let s : Service :=
      { id := "svc", days := [0, 2], start_date := 738886, end_date := 738916,
        exceptions := [(738888, false)] }
     s.exceptions.lookup 738886 = none ∧ s.runs_on 738886 = true) := by
  refine ⟨⟨by decide, (runs_on_spec _ 738888).1 false (by decide)⟩, ⟨by decide, ?_⟩⟩
  exact ((runs_on_spec _ 738886).2 (by decide)).2 (by decide)

-- Claim C6 -------------------------------------------------------------------

/-- C6.  After `remove_old_trip_instances()` (relative to the ambient `today`),
no trip instance or stop-time instance dated before `today - 1` remains
reachable through the date-keyed instance maps or through any per-stop index
entry, and every instance dated on or after `today - 1` is retained (date-keyed
maps unchanged, index entries kept). -/
theorem remove_old_trip_instances_spec (st : Store) (today : Date) :
    (∀ d, d < today - 1 →
      (st.remove_old_trip_instances today).trip_instances_by_date d = [] ∧
      (st.remove_old_trip_instances today).stop_time_instances_by_date d = []) ∧
    (∀ sid k, k ∈ (st.remove_old_trip_instances today).stop_time_instances_by_stop sid →
      today - 1 ≤ k.1) ∧
    (∀ d, today - 1 ≤ d →
      (st.remove_old_trip_instances today).trip_instances_by_date d =
        st.trip_instances_by_date d ∧
      (st.remove_old_trip_instances today).stop_time_instances_by_date d =
        st.stop_time_instances_by_date d) ∧
    (∀ sid k, k ∈ st.stop_time_instances_by_stop sid → today - 1 ≤ k.1 →
      k ∈ (st.remove_old_trip_instances today).stop_time_instances_by_stop sid) := by
  refine ⟨fun d hd => ?_, fun sid k hk => ?_, fun d hd => ?_, fun sid k hk hd => ?_⟩
  · simp [Store.remove_old_trip_instances, hd]
  · simp only [Store.remove_old_trip_instances, List.mem_filter,
      decide_eq_true_eq] at hk
    exact hk.2
  · constructor <;> simp [Store.remove_old_trip_instances, not_lt.mpr hd]
  · simp only [Store.remove_old_trip_instances, List.mem_filter,
      decide_eq_true_eq]
    exact ⟨hk, hd⟩

/-- C6 witness: a one-stop store holding an instance key from two days before
`today` and one from yesterday; the theorem applied at `today = 10` shows the
old key's date map is emptied, the index keeps only dates ≥ 9, yesterday's map
entry is retained, and the yesterday key survives in the index. -/
theorem remove_old_trip_instances_spec_witness :
    (let st : Store :=
      { routes := [], services_exceptions := fun _ => [], services := [],
        trips := [], trips_by_route := fun _ => [],
        trips_by_service := fun _ => [], stops := [],
        children_stops := fun _ => [], stop_times_by_trip := fun _ => [],
        route_types_by_stop := fun _ => [],
        trip_instances_by_date := fun _ => [],
        stop_time_instances_by_date := fun _ => [],
        stop_time_instances_by_stop := fun sid =>
          if sid = "s1" then [(8, "t1", 1), (9, "t1", 1)] else [] }
     (8 : Date) < 10 - 1 ∧
     (st.remove_old_trip_instances 10).trip_instances_by_date 8 = [] ∧
     ((9, "t1", 1) : StiKey) ∈ st.stop_time_instances_by_stop "s1" ∧
     (10 : Date) - 1 ≤ (9 : Date) ∧
     ((9, "t1", 1) : StiKey) ∈
       (st.remove_old_trip_instances 10).stop_time_instances_by_stop "s1") := by
  refine ⟨by decide, ((remove_old_trip_instances_spec _ 10).1 8 (by decide)).1,
    by simp, by decide, ?_⟩
  exact (remove_old_trip_instances_spec _ 10).2.2.2 "s1" (9, "t1", 1) (by simp)
    (by decide)

-- Claim C7 -------------------------------------------------------------------

/-- C7.  The claim that every insert lower-cases ids fails at
`add_service_exception` (store.py line 108 stores under the raw service id
while `get_service_exceptions`, line 360, reads under the lower-cased id):
adding an exception for service id "ABC" and reading it back — with the very
same casing — yields the empty map instead of the stored exception, while the
exception sits under the raw key "ABC". -/
theorem add_service_exception_case_bug :
    (let st : Store :=
      { routes := [], services_exceptions := fun _ => [], services := [],
        trips := [], trips_by_route := fun _ => [],
        trips_by_service := fun _ => [], stops := [],
        children_stops := fun _ => [], stop_times_by_trip := fun _ => [],
        route_types_by_stop := fun _ => [],
        trip_instances_by_date := fun _ => [],
        stop_time_instances_by_date := fun _ => [],
        stop_time_instances_by_stop := fun _ => [] }
     (st.add_service_exception "ABC" 738888 1).get_service_exceptions "ABC" = [] ∧
     (st.add_service_exception "ABC" 738888 1).services_exceptions "ABC" =
       [(738888, true)]) := by
  constructor <;> decide

end Trainbot
